import Mathlib

/-!
# EmulationStation: text-edit widget and scraper-start screen

A shallow embedding of `es-core/src/components/TextEditComponent.cpp` and
`es-app/src/guis/GuiScraperStart.cpp`, followed by theorems about them.

Conventions of the embedding.

* A C string (`std::string` contents, or the characters of a `const char*`
  before its terminator) is a `List Char`, one element per `char`.
* `unsigned int`, `size_t` and `int` values are `Nat` and `Int`: lengths,
  cursors and timers are taken to stay inside the range of their machine type,
  where the casts of the source are the identity (`setCursor`, whose argument
  is any `size_t`, keeps the low 32 bits).
* A `float` is a rational that IEEE 754 binary32 represents, and every `float`
  operation rounds its exact result to the nearest such value, ties to even
  (`f32`). Subnormal values are covered; overflow, infinities and NaN are not
  (there is no largest value).
* Code that is not part of the translated files (the `Font` class, the option
  lists, the window) appears as parameters.
* Where the C++ has no defined result (an exception of `std::string::insert`,
  an invalid range handed to `std::string::erase`) the embedding returns
  `none`.
-/

/-- Contents of a C string, one `Char` per C `char`. -/
abbrev CString := List Char

/-- The character literal `'\b'` (backspace, code 8). -/
def backspace : Char := Char.ofNat 8

/-- The expression `text[0]` for a `const char*`: the first character, or the
terminating NUL when the string is empty. -/
def firstChar (text : CString) : Char := text.headD (Char.ofNat 0)

/-! ## Single-precision arithmetic -/

/-- Rounding of a rational to the nearest integer, ties to the even one. -/
def roundHalfEven (q : ℚ) : ℤ :=
  if q - ⌊q⌋ < 1 / 2 then ⌊q⌋
  else if 1 / 2 < q - ⌊q⌋ then ⌊q⌋ + 1
  else if ⌊q⌋ % 2 = 0 then ⌊q⌋ else ⌊q⌋ + 1

/-- The binary exponent that binary32 uses for a positive value: the floor of
its base-2 logarithm, and -126 for what lies below the normal range. -/
def f32Exponent (q : ℚ) : ℤ := max (Int.log 2 q) (-126)

/-- The spacing of binary32 values around a positive value: 24 significant
bits, so `2 ^ (exponent - 23)`, and `2 ^ (-149)` in the subnormal range. -/
def f32Quantum (q : ℚ) : ℚ := 2 ^ (f32Exponent q - 23)

/-- Rounding of a non-negative rational to binary32: the nearest multiple of
the quantum, ties to the even multiple. -/
def f32Abs (q : ℚ) : ℚ := roundHalfEven (q / f32Quantum q) * f32Quantum q

/-- Rounding of a rational to binary32, round to nearest, ties to even; the
rounding is symmetric about zero. -/
def f32 (q : ℚ) : ℚ := if q < 0 then -f32Abs (-q) else f32Abs q

/-- A `float`: a rational that is the binary32 rounding of some value. -/
abbrev Float32 := { q : ℚ // ∃ r : ℚ, f32 r = q }

/-- The `float` nearest to a rational: a literal, a conversion from `int`, or
the result of an operation. -/
def Float32.ofRat (q : ℚ) : Float32 := ⟨f32 q, q, rfl⟩

/-- The `float` sum `a + b`. -/
def Float32.add (a b : Float32) : Float32 := Float32.ofRat (a.val + b.val)

/-- The `float` difference `a - b`. -/
def Float32.sub (a b : Float32) : Float32 := Float32.ofRat (a.val - b.val)

/-- The `float` product `a * b`. -/
def Float32.mul (a b : Float32) : Float32 := Float32.ofRat (a.val * b.val)

/-- An `Eigen::Vector2f`. -/
structure Vector2f where
  x : Float32
  y : Float32
deriving DecidableEq, Repr

/-- The call `std::string::insert(pos, text)`: it throws `std::out_of_range`
when `pos` is past the end. -/
def stringInsert (s : CString) (pos : Nat) (text : CString) : Option CString :=
  if pos ≤ s.length then some (s.take pos ++ text ++ s.drop pos) else none

/-- The call `std::string::erase(begin() + first, begin() + last)`: it is
defined for a valid range `first ≤ last ≤ size()` only. -/
def stringErase (s : CString) (first last : Nat) : Option CString :=
  if first ≤ last ∧ last ≤ s.length then some (s.take first ++ s.drop last) else none

/-- The members of `Font` that `TextEditComponent` calls. `Font.cpp` is not
among the translated files, so they are parameters of the embedding. -/
structure Font where
  /-- The value of `Font::getHeight()`. -/
  getHeight : Float32
  /-- The value of `Font::sizeText(text)`. -/
  sizeText : CString → Vector2f
  /-- The value of `Font::wrapText(text, xLen)`. -/
  wrapText : CString → Float32 → CString
  /-- The value of `Font::getWrappedTextCursorOffset(text, xLen, cursor)`. -/
  getWrappedTextCursorOffset : CString → Float32 → Nat → Vector2f
  /-- The value of `Font::getPrevCursor(str, cursor)`. -/
  getPrevCursor : CString → Nat → Nat
  /-- The value of `Font::moveCursor(str, cursor, amt)`. -/
  moveCursor : CString → Nat → Int → Nat

/-- What `Font::buildTextCache(text, 0, 0, color)` is given. -/
structure TextCache where
  text : CString
  color : Nat
deriving DecidableEq, Repr

/-- The constant `TEXT_PADDING_HORIZ`, converted to `float` where it is used. -/
def TEXT_PADDING_HORIZ : Float32 := Float32.ofRat 10

/-- The constant `TEXT_PADDING_VERT`, converted to `float` where it is used. -/
def TEXT_PADDING_VERT : Float32 := Float32.ofRat 2

/-- The constant `CURSOR_REPEAT_START_DELAY`. -/
def CURSOR_REPEAT_START_DELAY : Int := 500

/-- The constant `CURSOR_REPEAT_SPEED`. -/
def CURSOR_REPEAT_SPEED : Int := 28

/-- The data members of `TextEditComponent` (with `mSize` and the opacity of
its `GuiComponent` base). The font `mFont` never changes after construction and
is passed to the operations instead. -/
structure TextEditComponent where
  mText : CString
  mFocused : Bool
  mEditing : Bool
  mCursor : Nat
  mCursorRepeatTimer : Int
  mCursorRepeatDir : Int
  mScrollOffset : Vector2f
  mSize : Vector2f
  mOpacity : Nat
  mTextCache : Option TextCache
deriving DecidableEq, Repr

namespace TextEditComponent

/-- Embeds `TextEditComponent::isMultiline` -/
def isMultiline (font : Font) (c : TextEditComponent) : Bool :=
  decide (c.mSize.y.val > (Float32.mul font.getHeight (Float32.ofRat (5 / 4))).val)

/-- Embeds `TextEditComponent::getTextAreaSize` -/
def getTextAreaSize (c : TextEditComponent) : Vector2f :=
  { x := Float32.sub c.mSize.x TEXT_PADDING_HORIZ,
    y := Float32.sub c.mSize.y TEXT_PADDING_VERT }

/-- Embeds `TextEditComponent::onTextChanged` -/
def onTextChanged (font : Font) (c : TextEditComponent) : TextEditComponent :=
  let wrappedText :=
    if isMultiline font c then font.wrapText c.mText (getTextAreaSize c).x else c.mText
  let c := { c with mTextCache := some { text := wrappedText, color := 0x77777700 ||| c.mOpacity } }
  if c.mCursor > c.mText.length then { c with mCursor := c.mText.length } else c

/-- Embeds `TextEditComponent::onCursorChanged` -/
def onCursorChanged (font : Font) (c : TextEditComponent) : TextEditComponent :=
  if isMultiline font c then
    let textSize := font.getWrappedTextCursorOffset c.mText (getTextAreaSize c).x c.mCursor
    if (Float32.add c.mScrollOffset.y (getTextAreaSize c).y).val
        < (Float32.add textSize.y font.getHeight).val then
      { c with mScrollOffset :=
          { c.mScrollOffset with
            y := Float32.add (Float32.sub textSize.y (getTextAreaSize c).y) font.getHeight } }
    else if c.mScrollOffset.y.val > textSize.y.val then
      { c with mScrollOffset := { c.mScrollOffset with y := textSize.y } }
    else c
  else
    let cursorPos := font.sizeText (c.mText.take c.mCursor)
    if (Float32.add c.mScrollOffset.x (getTextAreaSize c).x).val < cursorPos.x.val then
      { c with mScrollOffset :=
          { c.mScrollOffset with x := Float32.sub cursorPos.x (getTextAreaSize c).x } }
    else if c.mScrollOffset.x.val > cursorPos.x.val then
      { c with mScrollOffset := { c.mScrollOffset with x := cursorPos.x } }
    else c

/-- Embeds `TextEditComponent::setValue` -/
def setValue (font : Font) (c : TextEditComponent) (val : CString) : TextEditComponent :=
  onTextChanged font { c with mText := val }

/-- Embeds `TextEditComponent::getValue` -/
def getValue (c : TextEditComponent) : CString := c.mText

/-- The `if(mEditing)` block of `TextEditComponent::textInput`: the edit of the
buffer and the cursor, before the two change notifications. -/
def textInputEdit (font : Font) (c : TextEditComponent) (text : CString) :
    Option TextEditComponent :=
  if c.mEditing then
    let c := { c with mCursorRepeatDir := 0 }
    if firstChar text = backspace then
      if c.mCursor > 0 then
        let newCursor := font.getPrevCursor c.mText c.mCursor
        (stringErase c.mText newCursor c.mCursor).map
          fun s => { c with mText := s, mCursor := newCursor }
      else some c
    else
      (stringInsert c.mText c.mCursor text).map
        fun s => { c with mText := s, mCursor := c.mCursor + text.length }
  else some c

/-- Embeds `TextEditComponent::textInput` -/
def textInput (font : Font) (c : TextEditComponent) (text : CString) :
    Option TextEditComponent :=
  (textInputEdit font c text).map fun c => onCursorChanged font (onTextChanged font c)

/-- Embeds `TextEditComponent::moveCursor` -/
def moveCursor (font : Font) (c : TextEditComponent) (amt : Int) : TextEditComponent :=
  onCursorChanged font { c with mCursor := font.moveCursor c.mText c.mCursor amt }

/-- Embeds `TextEditComponent::setCursor`; `pos = none` stands for
`std::string::npos`. The cast `(int)pos`, stored in the unsigned 32-bit cursor,
keeps the low 32 bits of `pos`. -/
def setCursor (font : Font) (c : TextEditComponent) (pos : Option Nat) : TextEditComponent :=
  match pos with
  | none => moveCursor font { c with mCursor := c.mText.length } 0
  | some p => moveCursor font { c with mCursor := p % 2 ^ 32 } 0

/-- Embeds `TextEditComponent::onFocusGained` (the image of the frame is not modelled). -/
def onFocusGained (c : TextEditComponent) : TextEditComponent := { c with mFocused := true }

/-- Embeds `TextEditComponent::onFocusLost` (the image of the frame is not modelled). -/
def onFocusLost (c : TextEditComponent) : TextEditComponent := { c with mFocused := false }

/-- Embeds `TextEditComponent::startEditing` (the SDL call and the help prompts are
outside the component's data). -/
def startEditing (c : TextEditComponent) : TextEditComponent := { c with mEditing := true }

/-- Embeds `TextEditComponent::stopEditing` (the SDL call and the help prompts are
outside the component's data). -/
def stopEditing (c : TextEditComponent) : TextEditComponent := { c with mEditing := false }

/-- The `while` loop of `TextEditComponent::updateCursorRepeat`. Each iteration
lowers the timer by `CURSOR_REPEAT_SPEED`, so the loop ends. -/
def cursorRepeatLoop (font : Font) (c : TextEditComponent) : TextEditComponent :=
  if _h : c.mCursorRepeatTimer ≥ CURSOR_REPEAT_SPEED then
    let c1 := moveCursor font c c.mCursorRepeatDir
    cursorRepeatLoop font
      { c1 with mCursorRepeatTimer := c1.mCursorRepeatTimer - CURSOR_REPEAT_SPEED }
  else c
termination_by c.mCursorRepeatTimer.toNat
decreasing_by
  have hkeep : (moveCursor font c c.mCursorRepeatDir).mCursorRepeatTimer
      = c.mCursorRepeatTimer := by
    unfold moveCursor onCursorChanged
    simp only []
    split_ifs <;> rfl
  have hge : (28 : Int) ≤ c.mCursorRepeatTimer := _h
  show ((moveCursor font c c.mCursorRepeatDir).mCursorRepeatTimer - 28).toNat
    < c.mCursorRepeatTimer.toNat
  rw [hkeep]
  omega

/-- Embeds `TextEditComponent::updateCursorRepeat` -/
def updateCursorRepeat (font : Font) (c : TextEditComponent) (deltaTime : Int) :
    TextEditComponent :=
  if c.mCursorRepeatDir = 0 then c
  else cursorRepeatLoop font { c with mCursorRepeatTimer := c.mCursorRepeatTimer + deltaTime }

/-- Embeds `TextEditComponent::update`. The call of `GuiComponent::update` only
reaches the child frame, which holds none of the data modelled here. -/
def update (font : Font) (c : TextEditComponent) (deltaTime : Int) : TextEditComponent :=
  updateCursorRepeat font c deltaTime

end TextEditComponent

/-- An `Input` event: the fields `TextEditComponent::input` reads. -/
structure Input where
  id : Int
  value : Int
deriving DecidableEq, Repr

/-- The members of `InputConfig` that the components call. -/
structure InputConfig where
  /-- The value of `InputConfig::getDeviceId()`. -/
  getDeviceId : Int
  /-- The value of `InputConfig::isMappedTo(name, input)`. -/
  isMappedTo : String → Input → Bool

/-- The device id `DEVICE_KEYBOARD` of `InputConfig.h`. -/
def DEVICE_KEYBOARD : Int := -1

/-- The SDL key code `SDLK_RETURN`. -/
def SDLK_RETURN : Int := 13

/-- The SDL key code `SDLK_ESCAPE`. -/
def SDLK_ESCAPE : Int := 27

namespace TextEditComponent

/-- Embeds `TextEditComponent::input`: the returned flag and the component after the
call. -/
def input (font : Font) (c : TextEditComponent) (config : InputConfig) (inp : Input) :
    Option (Bool × TextEditComponent) :=
  if inp.value = 0 then
    if config.isMappedTo "left" inp || config.isMappedTo "right" inp then
      some (false, { c with mCursorRepeatDir := 0 })
    else some (false, c)
  else if config.isMappedTo "a" inp && c.mFocused && !c.mEditing then
    some (true, startEditing c)
  else if c.mEditing then
    if config.getDeviceId = DEVICE_KEYBOARD ∧ inp.id = SDLK_RETURN then
      if isMultiline font c then
        (textInput font c [Char.ofNat 10]).map fun c => (true, c)
      else some (true, stopEditing c)
    else if (config.getDeviceId = DEVICE_KEYBOARD ∧ inp.id = SDLK_ESCAPE)
        ∨ (config.getDeviceId ≠ DEVICE_KEYBOARD ∧ config.isMappedTo "b" inp) then
      some (true, stopEditing c)
    else if config.isMappedTo "up" inp then some (true, c)
    else if config.isMappedTo "down" inp then some (true, c)
    else if config.isMappedTo "left" inp || config.isMappedTo "right" inp then
      let c := { c with mCursorRepeatDir := if config.isMappedTo "left" inp then -1 else 1 }
      let c := { c with
        mCursorRepeatTimer := -(CURSOR_REPEAT_START_DELAY - CURSOR_REPEAT_SPEED) }
      some (true, moveCursor font c c.mCursorRepeatDir)
    else some (true, c)
  else some (false, c)

/-- A run of `update` calls with the given `deltaTime` values, in order, and
no other call in between. -/
def updates (font : Font) (c : TextEditComponent) (deltaTimes : List Int) :
    TextEditComponent :=
  deltaTimes.foldl (update font) c

end TextEditComponent

/-! ## The scraper-start screen -/

/-- A `MetaDataList`, seen through `MetaDataList::get(key)`. -/
structure MetaDataList where
  get : String → String

/-- A `FileData` record: a game of a system. -/
structure FileData where
  path : String
  metadata : MetaDataList

/-- A `SystemData` record. `games` is the value of
`getRootFolder()->getFilesRecursive(GAME)`, the recursive game list of the
system, and `platformIds` that of `getPlatformIds()`. -/
structure SystemData where
  name : String
  platformIds : List Nat
  games : List FileData

/-- Embeds `ScraperSearchParams`: one unit of scrape work. -/
structure ScraperSearchParams where
  system : SystemData
  game : FileData

/-- Embeds `GameFilterFunc`: `bool(SystemData*, FileData*)` -/
abbrev GameFilterFunc := SystemData → FileData → Bool

/-- A `std::queue<ScraperSearchParams>`, front first. -/
abbrev SearchQueue := List ScraperSearchParams

/-- Embeds `std::queue::push`: the element goes to the back. -/
def SearchQueue.push (queue : SearchQueue) (search : ScraperSearchParams) : SearchQueue :=
  queue ++ [search]

/-- What a button of a message box runs: the only callback bound in this
screen is `std::bind(&GuiScraperStart::start, this)`. -/
inductive MsgBoxFunc where
  | start
deriving DecidableEq, Repr

/-- A button handed to the `GuiMsgBox` constructor: its label and its callback
(`none` for `nullptr`). -/
structure MsgBoxButton where
  name : String
  func : Option MsgBoxFunc
deriving DecidableEq, Repr

/-- The screens this code creates with `new`. -/
inductive Gui where
  /-- The screen made by `new GuiMsgBox(mWindow, text, ...)`, with the buttons given
  at the call -/
  | msgBox (text : String) (buttons : List MsgBoxButton)
  /-- The screen made by `new GuiScraperMulti(mWindow, searches, approveResults)` -/
  | scraperMulti (searches : SearchQueue) (approveResults : Bool)

/-- The GUI stack of the `Window`, bottom first. -/
structure Window where
  guiStack : List Gui

/-- Embeds `Window::pushGui` -/
def Window.pushGui (w : Window) (gui : Gui) : Window :=
  { guiStack := w.guiStack ++ [gui] }

/-- The state of `GuiScraperStart` that `start` and `pressedStart` read:
`mSystems` is the value of `mSystems->getSelectedObjects()`, `mFilters` that of
`mFilters->getSelected()` and `mApproveResults` that of
`mApproveResults->getState()`. -/
structure GuiScraperStart where
  mSystems : List SystemData
  mFilters : GameFilterFunc
  mApproveResults : Bool

namespace GuiScraperStart

/-- The filter added as "Todos os Jogos" in the constructor. -/
def filterAllGames : GameFilterFunc := fun _ _ => true

/-- The filter added as "Apenas imagem" in the constructor. -/
def filterMissingImage : GameFilterFunc := fun _ g => (g.metadata.get "image").isEmpty

/-- Embeds `GuiScraperStart::getSearches`: the two nested `for` loops, pushing onto
the queue. -/
def getSearches (systems : List SystemData) (selector : GameFilterFunc) : SearchQueue :=
  systems.foldl
    (fun queue sys =>
      sys.games.foldl
        (fun queue game =>
          if selector sys game then queue.push { system := sys, game := game } else queue)
        queue)
    []

/-- What a call of a member function leaves behind: the window, and whether
`delete this` ran (the screen is closed). -/
structure Outcome where
  window : Window
  deleted : Bool

/-- Embeds `GuiScraperStart::start` -/
def start (g : GuiScraperStart) (w : Window) : Outcome :=
  let searches := getSearches g.mSystems g.mFilters
  if searches.isEmpty then
    { window := w.pushGui (Gui.msgBox "NENHUM JOGO CORRESPONDE AO CRITERIO." []),
      deleted := false }
  else
    let gsm := Gui.scraperMulti searches g.mApproveResults
    { window := w.pushGui gsm, deleted := true }

/-- The text of the warning of `pressedStart`, before `strToUpper`. -/
def platformWarning : String :=
  "Atencao: Alguns dos sistemas selecionados nao possuem uma plataforma definida. Resultados podem nao ser precisos\nContinuar mesmo assim?"

/-- The `for` loop of `GuiScraperStart::pressedStart` over the systems still to
visit, and the call of `start` after it: the first system without a platform
id pushes the warning, with "SIM" bound to `start` and "NAO" to `nullptr`, and
returns. `strToUpper` (of `Util.cpp`, not among the translated files) is a
parameter. -/
def pressedStartLoop (strToUpper : String → String) (g : GuiScraperStart) (w : Window) :
    List SystemData → Outcome
  | [] => start g w
  | sys :: rest =>
    if sys.platformIds.isEmpty then
      { window := w.pushGui
          (Gui.msgBox (strToUpper platformWarning)
            [{ name := "SIM", func := some MsgBoxFunc.start },
             { name := "NAO", func := none }]),
        deleted := false }
    else pressedStartLoop strToUpper g w rest

/-- Embeds `GuiScraperStart::pressedStart` -/
def pressedStart (strToUpper : String → String) (g : GuiScraperStart) (w : Window) :
    Outcome :=
  pressedStartLoop strToUpper g w g.mSystems

end GuiScraperStart

/-! ## Sample data

A fixed-width font over one-byte characters and a small component, used to
instantiate the theorems below at concrete inputs. -/

/-- A fixed-width font: every character is 10 wide and 20 high, text is never
wrapped, and the cursor moves one character at a time inside the string. -/
def monoFont : Font where
  getHeight := Float32.ofRat 20
  sizeText := fun s => { x := Float32.ofRat (10 * s.length), y := Float32.ofRat 20 }
  wrapText := fun s _ => s
  getWrappedTextCursorOffset := fun _ _ cursor =>
    { x := Float32.ofRat (10 * cursor), y := Float32.ofRat 0 }
  getPrevCursor := fun _ cursor => cursor - 1
  moveCursor := fun s cursor amt => min (cursor + amt).toNat s.length

/-- A single-line component, 256 by 22, holding `abc` with the cursor after
the `b`, in editing mode. -/
def sampleEdit : TextEditComponent where
  mText := ['a', 'b', 'c']
  mFocused := true
  mEditing := true
  mCursor := 2
  mCursorRepeatTimer := 0
  mCursorRepeatDir := 0
  mScrollOffset := { x := Float32.ofRat 0, y := Float32.ofRat 0 }
  mSize := { x := Float32.ofRat 256, y := Float32.ofRat 22 }
  mOpacity := 255
  mTextCache := none

/-- The sample component made three lines high, scrolled down by 100. -/
def sampleMultiline : TextEditComponent :=
  { sampleEdit with
    mSize := { x := Float32.ofRat 256, y := Float32.ofRat 62 },
    mScrollOffset := { x := Float32.ofRat 0, y := Float32.ofRat 100 } }

/-- A font that is 2 high and reports every cursor at the origin. -/
def tinyFont : Font where
  getHeight := Float32.ofRat 2
  sizeText := fun _ => { x := Float32.ofRat 0, y := Float32.ofRat 2 }
  wrapText := fun s _ => s
  getWrappedTextCursorOffset := fun _ _ _ => { x := Float32.ofRat 0, y := Float32.ofRat 0 }
  getPrevCursor := fun _ cursor => cursor - 1
  moveCursor := fun _ cursor _ => cursor

/-- An empty component of height 3, not scrolled: with `tinyFont` it is
multi-line (3 > 2.5) and its text area is 1 high. -/
def tinyEdit : TextEditComponent where
  mText := []
  mFocused := true
  mEditing := true
  mCursor := 0
  mCursorRepeatTimer := 0
  mCursorRepeatDir := 0
  mScrollOffset := { x := Float32.ofRat 0, y := Float32.ofRat 0 }
  mSize := { x := Float32.ofRat 256, y := Float32.ofRat 3 }
  mOpacity := 255
  mTextCache := none

/-- A font that is 20 high and measures every text as 14528785/16384 wide
(about 886.77). -/
def wideTextFont : Font where
  getHeight := Float32.ofRat 20
  sizeText := fun _ => { x := Float32.ofRat (14528785 / 16384), y := Float32.ofRat 20 }
  wrapText := fun s _ => s
  getWrappedTextCursorOffset := fun _ _ _ => { x := Float32.ofRat 0, y := Float32.ofRat 0 }
  getPrevCursor := fun _ cursor => cursor - 1
  moveCursor := fun _ cursor _ => cursor

/-- The sample component made 2221381/32768 wide (about 67.79), not scrolled. -/
def narrowEdit : TextEditComponent :=
  { sampleEdit with
    mSize := { x := Float32.ofRat (2221381 / 32768), y := Float32.ofRat 22 } }

/-- A font that is 18 high and reports every cursor on the line at 288. -/
def tallLineFont : Font where
  getHeight := Float32.ofRat 18
  sizeText := fun _ => { x := Float32.ofRat 0, y := Float32.ofRat 18 }
  wrapText := fun s _ => s
  getWrappedTextCursorOffset := fun _ _ _ =>
    { x := Float32.ofRat 0, y := Float32.ofRat 288 }
  getPrevCursor := fun _ cursor => cursor - 1
  moveCursor := fun _ cursor _ => cursor

/-- The sample component made 10806983/131072 high (about 82.45), not scrolled:
with `tallLineFont` it is multi-line and a line fits in its text area. -/
def tallEdit : TextEditComponent :=
  { sampleEdit with
    mSize := { x := Float32.ofRat 256, y := Float32.ofRat (10806983 / 131072) } }

/-- A keyboard configuration: key 1 is mapped to "left", key 2 to "right",
key 3 to "a" and key 4 to "b". -/
def sampleConfig : InputConfig where
  getDeviceId := DEVICE_KEYBOARD
  isMappedTo := fun name inp =>
    (name == "left" && inp.id == 1) || (name == "right" && inp.id == 2)
      || (name == "a" && inp.id == 3) || (name == "b" && inp.id == 4)

/-- A system with one game that has no image yet. -/
def sampleSystem : SystemData where
  name := "nes"
  platformIds := [7]
  games := [{ path := "./game.nes", metadata := { get := fun _ => "" } }]

/-- A scraper-start screen with the sample system selected, the image filter
and the approve switch on. -/
def sampleScraperStart : GuiScraperStart where
  mSystems := [sampleSystem]
  mFilters := GuiScraperStart.filterMissingImage
  mApproveResults := true

/-- The three-line sample component after `setCursor(5)`, under `tinyFont`:
its buffer `abc` is shorter than the cursor position. -/
def samplePastEnd : TextEditComponent :=
  TextEditComponent.setCursor tinyFont sampleMultiline (some 5)

/-- A system for which no platform id is configured. -/
def sampleSystemNoPlatform : SystemData where
  name := "homebrew"
  platformIds := []
  games := [{ path := "./demo.bin", metadata := { get := fun _ => "" } }]

/-- A scraper-start screen with three systems selected, two of them without a
platform id. -/
def sampleScraperStartNoPlatform : GuiScraperStart where
  mSystems := [sampleSystem, sampleSystemNoPlatform, sampleSystemNoPlatform]
  mFilters := GuiScraperStart.filterAllGames
  mApproveResults := true

/-- An upper-casing of ASCII letters, standing for `strToUpper`. -/
def sampleToUpper (s : String) : String := s.map Char.toUpper

/-! ## Theorems: single-precision rounding -/

theorem roundHalfEven_intCast (n : ℤ) : roundHalfEven (n : ℚ) = n := by
  unfold roundHalfEven
  simp

theorem floor_le_roundHalfEven (q : ℚ) : ⌊q⌋ ≤ roundHalfEven q := by
  unfold roundHalfEven
  split_ifs <;> omega

theorem roundHalfEven_le_floor_succ (q : ℚ) : roundHalfEven q ≤ ⌊q⌋ + 1 := by
  unfold roundHalfEven
  split_ifs <;> omega

theorem roundHalfEven_mono {a b : ℚ} (h : a ≤ b) : roundHalfEven a ≤ roundHalfEven b := by
  have hfl : ⌊a⌋ ≤ ⌊b⌋ := Int.floor_mono h
  rcases hfl.lt_or_eq with hlt | heq
  · have h1 := roundHalfEven_le_floor_succ a
    have h2 := floor_le_roundHalfEven b
    omega
  · unfold roundHalfEven
    rw [heq]
    split_ifs <;> simp only [not_lt] at * <;> first | omega | linarith

theorem f32Exponent_ge (q : ℚ) : -126 ≤ f32Exponent q := le_max_right _ _

theorem lt_zpow_f32Exponent (q : ℚ) : q < 2 ^ (f32Exponent q + 1) := by
  have h1 : q < ((2 : ℕ) : ℚ) ^ (Int.log 2 q + 1) := Int.lt_zpow_succ_log_self (by norm_num) q
  have h2 : ((2 : ℕ) : ℚ) ^ (Int.log 2 q + 1) ≤ 2 ^ (f32Exponent q + 1) := by
    rw [Nat.cast_ofNat]
    apply zpow_le_zpow_right₀ (by norm_num)
    have := le_max_left (Int.log 2 q) (-126)
    unfold f32Exponent
    omega
  exact lt_of_lt_of_le h1 h2

theorem zpow_f32Exponent_le {q : ℚ} (hq : 0 < q) (he : -126 < f32Exponent q) :
    (2 : ℚ) ^ f32Exponent q ≤ q := by
  have hlog : f32Exponent q = Int.log 2 q := by
    unfold f32Exponent at he ⊢
    rcases le_total (Int.log 2 q) (-126) with h | h
    · rw [max_eq_right h] at he
      exact absurd he (lt_irrefl _)
    · exact max_eq_left h
  rw [hlog]
  have := Int.zpow_log_le_self (b := 2) (r := q) (by norm_num) hq
  rwa [Nat.cast_ofNat] at this

theorem f32Exponent_mono {a b : ℚ} (ha : 0 < a) (h : a ≤ b) : f32Exponent a ≤ f32Exponent b :=
  max_le_max (Int.log_mono_right ha h) le_rfl

theorem f32Exponent_le_of_lt {q : ℚ} {k : ℤ} (hq : 0 < q) (hk : -126 ≤ k)
    (h : q < 2 ^ (k + 1)) : f32Exponent q ≤ k := by
  have hlog : Int.log 2 q < k + 1 := by
    rw [← Int.lt_zpow_iff_log_lt (by norm_num) hq, Nat.cast_ofNat]
    exact h
  unfold f32Exponent
  exact max_le (by omega) hk

theorem f32Exponent_eq {q : ℚ} {e : ℤ} (hq : 0 < q) (he : -126 ≤ e) (hlo : (2 : ℚ) ^ e ≤ q)
    (hhi : q < 2 ^ (e + 1)) : f32Exponent q = e := by
  apply le_antisymm (f32Exponent_le_of_lt hq he hhi)
  have hlog : e ≤ Int.log 2 q := by
    rw [← Int.zpow_le_iff_le_log (by norm_num) hq, Nat.cast_ofNat]
    exact hlo
  exact le_trans hlog (le_max_left _ _)

theorem f32Quantum_pos (q : ℚ) : 0 < f32Quantum q := by
  unfold f32Quantum
  positivity

theorem f32Abs_nonneg {q : ℚ} (hq : 0 ≤ q) : 0 ≤ f32Abs q := by
  unfold f32Abs
  apply mul_nonneg _ (f32Quantum_pos q).le
  have h0 : (0 : ℚ) ≤ q / f32Quantum q := div_nonneg hq (f32Quantum_pos q).le
  have := roundHalfEven_mono h0
  rw [show ((0 : ℚ)) = ((0 : ℤ) : ℚ) by norm_num, roundHalfEven_intCast] at this
  exact_mod_cast this

theorem f32Abs_zero : f32Abs 0 = 0 := by
  unfold f32Abs
  rw [zero_div, show ((0 : ℚ)) = ((0 : ℤ) : ℚ) by norm_num, roundHalfEven_intCast]
  simp

/-- A value in the binade of exponent `e` rounds into `[0, 2 ^ (e + 1)]`. -/
theorem f32Abs_le_zpow (q : ℚ) : f32Abs q ≤ 2 ^ (f32Exponent q + 1) := by
  have hu := f32Quantum_pos q
  have hlt := lt_zpow_f32Exponent q
  have hdiv : q / f32Quantum q ≤ ((2 ^ 24 : ℤ) : ℚ) := by
    rw [div_le_iff₀ hu]
    have hsplit : (2 : ℚ) ^ (f32Exponent q + 1) = ((2 ^ 24 : ℤ) : ℚ) * f32Quantum q := by
      unfold f32Quantum
      rw [show f32Exponent q + 1 = 24 + (f32Exponent q - 23) by ring, zpow_add₀ (by norm_num)]
      norm_num
    rw [← hsplit]
    exact hlt.le
  have hr := roundHalfEven_mono hdiv
  rw [roundHalfEven_intCast] at hr
  have hsplit : (2 : ℚ) ^ (f32Exponent q + 1) = ((2 ^ 24 : ℤ) : ℚ) * f32Quantum q := by
    unfold f32Quantum
    rw [show f32Exponent q + 1 = 24 + (f32Exponent q - 23) by ring, zpow_add₀ (by norm_num)]
    norm_num
  rw [hsplit]
  unfold f32Abs
  apply mul_le_mul_of_nonneg_right _ hu.le
  exact_mod_cast hr

theorem zpow_le_f32Abs {q : ℚ} (hq : 0 < q) (he : -126 < f32Exponent q) :
    (2 : ℚ) ^ f32Exponent q ≤ f32Abs q := by
  have hu := f32Quantum_pos q
  have hsplit : (2 : ℚ) ^ f32Exponent q = ((2 ^ 23 : ℤ) : ℚ) * f32Quantum q := by
    unfold f32Quantum
    rw [show f32Exponent q = 23 + (f32Exponent q - 23) by ring, zpow_add₀ (by norm_num)]
    norm_num
  have hdiv : ((2 ^ 23 : ℤ) : ℚ) ≤ q / f32Quantum q := by
    rw [le_div_iff₀ hu, ← hsplit]
    exact zpow_f32Exponent_le hq he
  have hr := roundHalfEven_mono hdiv
  rw [roundHalfEven_intCast] at hr
  rw [hsplit]
  unfold f32Abs
  apply mul_le_mul_of_nonneg_right _ hu.le
  exact_mod_cast hr

theorem f32Abs_mono {a b : ℚ} (ha : 0 ≤ a) (h : a ≤ b) : f32Abs a ≤ f32Abs b := by
  rcases ha.eq_or_lt with h0 | hpos
  · rw [← h0, f32Abs_zero]
    exact f32Abs_nonneg (le_trans ha h)
  · have hb : 0 < b := lt_of_lt_of_le hpos h
    have hexp := f32Exponent_mono hpos h
    rcases hexp.lt_or_eq with hlt | heq
    · have h1 := f32Abs_le_zpow a
      have h2 := zpow_le_f32Abs hb (lt_of_le_of_lt (f32Exponent_ge a) hlt)
      have h3 : (2 : ℚ) ^ (f32Exponent a + 1) ≤ 2 ^ f32Exponent b :=
        zpow_le_zpow_right₀ (by norm_num) (by omega)
      linarith
    · have hu : f32Quantum a = f32Quantum b := by
        unfold f32Quantum
        rw [heq]
      unfold f32Abs
      rw [hu]
      apply mul_le_mul_of_nonneg_right _ (f32Quantum_pos b).le
      have : a / f32Quantum b ≤ b / f32Quantum b :=
        div_le_div_of_nonneg_right h (f32Quantum_pos b).le
      exact_mod_cast roundHalfEven_mono this

theorem f32_mono {a b : ℚ} (h : a ≤ b) : f32 a ≤ f32 b := by
  unfold f32
  split_ifs with ha hb hb
  · have := f32Abs_mono (a := -b) (b := -a) (by linarith) (by linarith)
    linarith
  · have h1 := f32Abs_nonneg (q := -a) (by linarith)
    have h2 := f32Abs_nonneg (q := b) (by linarith)
    linarith
  · linarith
  · exact f32Abs_mono (by linarith) h

theorem roundHalfEven_eq_of_near {x : ℚ} {n : ℤ} (h1 : (n : ℚ) - 1 / 2 < x)
    (h2 : x < n + 1 / 2) : roundHalfEven x = n := by
  unfold roundHalfEven
  rcases le_or_lt (n : ℚ) x with hge | hlt
  · have hfl : ⌊x⌋ = n := by
      rw [Int.floor_eq_iff]
      constructor
      · exact hge
      · linarith
    rw [hfl, if_pos (by linarith)]
  · have hfl : ⌊x⌋ = n - 1 := by
      rw [Int.floor_eq_iff]
      push_cast
      constructor
      · linarith
      · linarith
    rw [hfl]
    push_cast
    rw [if_neg (by linarith), if_pos (by linarith)]
    ring

/-- A positive multiple of a power of two that is a multiple of its own
quantum is kept by the rounding. -/
theorem f32Abs_dyadic {v : ℚ} (n a : ℤ) (hva : v = n * 2 ^ a)
    (hb : f32Exponent v - 23 ≤ a) : f32Abs v = v := by
  have hu := f32Quantum_pos v
  obtain ⟨k, hk⟩ : ∃ k : ℕ, a = (f32Exponent v - 23) + k :=
    ⟨(a - (f32Exponent v - 23)).toNat, by omega⟩
  have hpow : (2 : ℚ) ^ a = 2 ^ (f32Exponent v - 23) * 2 ^ k := by
    rw [hk, zpow_add₀ (by norm_num : (2 : ℚ) ≠ 0), zpow_natCast]
  have hdiv : v / f32Quantum v = ((n * 2 ^ k : ℤ) : ℚ) := by
    rw [div_eq_iff hu.ne']
    unfold f32Quantum
    calc v = n * 2 ^ a := hva
      _ = n * (2 ^ (f32Exponent v - 23) * 2 ^ k) := by rw [hpow]
      _ = ((n * 2 ^ k : ℤ) : ℚ) * 2 ^ (f32Exponent v - 23) := by
        push_cast
        ring
  unfold f32Abs
  rw [hdiv, roundHalfEven_intCast, ← hdiv]
  exact div_mul_cancel₀ _ hu.ne'

theorem f32Abs_idem {q : ℚ} (hq : 0 ≤ q) : f32Abs (f32Abs q) = f32Abs q := by
  rcases (f32Abs_nonneg hq).eq_or_lt with h0 | hpos
  · rw [← h0, f32Abs_zero]
  · have hle := f32Abs_le_zpow q
    rcases hle.eq_or_lt with heq | hlt
    · have hexp : f32Exponent (f32Abs q) = f32Exponent q + 1 := by
        apply f32Exponent_eq hpos
        · have := f32Exponent_ge q
          omega
        · rw [heq]
        · rw [heq]
          exact zpow_lt_zpow_right₀ (by norm_num) (by omega)
      exact f32Abs_dyadic (v := f32Abs q) 1 (f32Exponent q + 1) (by rw [heq]; simp)
        (by omega)
    · have hexp := f32Exponent_le_of_lt hpos (f32Exponent_ge q) hlt
      exact f32Abs_dyadic (v := f32Abs q) (roundHalfEven (q / f32Quantum q))
        (f32Exponent q - 23) rfl (by omega)

theorem f32_zero : f32 0 = 0 := by
  unfold f32
  rw [if_neg (lt_irrefl _), f32Abs_zero]

theorem f32_idem (q : ℚ) : f32 (f32 q) = f32 q := by
  by_cases hq : q < 0
  · have hv : f32 q = -f32Abs (-q) := by
      unfold f32
      rw [if_pos hq]
    have hnn := f32Abs_nonneg (q := -q) (by linarith)
    rw [hv]
    rcases hnn.eq_or_lt with h0 | hpos
    · rw [← h0]
      simp [f32_zero]
    · have houter : f32 (-f32Abs (-q)) = -f32Abs (- -f32Abs (-q)) := by
        unfold f32
        rw [if_pos (by linarith)]
      rw [houter, neg_neg, f32Abs_idem (by linarith)]
  · have hv : f32 q = f32Abs q := by
      unfold f32
      rw [if_neg hq]
    have hnn := f32Abs_nonneg (q := q) (by linarith)
    rw [hv]
    have houter : f32 (f32Abs q) = f32Abs (f32Abs q) := by
      unfold f32
      rw [if_neg (by linarith)]
    rw [houter, f32Abs_idem (by linarith)]

/-- Every `n * 2 ^ a` with `|n| < 2 ^ 24` and `a ≥ -149` is a float32 value. -/
theorem f32_dyadic (n a : ℤ) (ha : -149 ≤ a) (hn : |n| < 2 ^ 24) :
    f32 ((n : ℚ) * 2 ^ a) = n * 2 ^ a := by
  have hpow : (0 : ℚ) < 2 ^ a := by positivity
  have key : ∀ m : ℤ, 0 < m → m < 2 ^ 24 → f32Abs ((m : ℚ) * 2 ^ a) = m * 2 ^ a := by
    intro m hm0 hm
    have hv : (0 : ℚ) < m * 2 ^ a := mul_pos (by exact_mod_cast hm0) hpow
    apply f32Abs_dyadic m a rfl
    have hlt : (m : ℚ) * 2 ^ a < 2 ^ (a + 23 + 1) := by
      rw [show a + 23 + 1 = 24 + a by ring, zpow_add₀ (by norm_num : (2 : ℚ) ≠ 0)]
      apply mul_lt_mul_of_pos_right _ hpow
      exact_mod_cast hm
    have := f32Exponent_le_of_lt hv (by omega) hlt
    omega
  rcases lt_trichotomy n 0 with hneg | h0 | hpos
  · have hlt : (n : ℚ) * 2 ^ a < 0 := mul_neg_of_neg_of_pos (by exact_mod_cast hneg) hpow
    unfold f32
    rw [if_pos hlt]
    have hk := key (-n) (by omega) (by rw [abs_of_neg hneg] at hn; exact hn)
    push_cast at hk
    rw [show -((n : ℚ) * 2 ^ a) = -(n : ℚ) * 2 ^ a by ring, hk]
    ring
  · subst h0
    simp [f32_zero]
  · have hge : ¬ (n : ℚ) * 2 ^ a < 0 :=
      not_lt.mpr (mul_pos (by exact_mod_cast hpos) hpow).le
    unfold f32
    rw [if_neg hge]
    exact key n hpos (by rw [abs_of_pos hpos] at hn; exact hn)

/-- The rounding of a positive value, from its binade and the integer nearest
to its scaled mantissa. -/
theorem f32_eq_of_near {q : ℚ} (e n : ℤ) (hq : 0 < q) (he : -126 ≤ e)
    (hlo : (2 : ℚ) ^ e ≤ q) (hhi : q < 2 ^ (e + 1))
    (h1 : (n : ℚ) - 1 / 2 < q / 2 ^ (e - 23)) (h2 : q / 2 ^ (e - 23) < n + 1 / 2) :
    f32 q = n * 2 ^ (e - 23) := by
  have hexp := f32Exponent_eq hq he hlo hhi
  unfold f32
  rw [if_neg (not_lt.mpr hq.le)]
  unfold f32Abs f32Quantum
  rw [hexp, roundHalfEven_eq_of_near h1 h2]

theorem roundHalfEven_tie_even {x : ℚ} {n : ℤ} (hx : x = n + 1 / 2) (hn : n % 2 = 0) :
    roundHalfEven x = n := by
  have hfl : ⌊x⌋ = n := by
    rw [Int.floor_eq_iff]
    constructor <;> linarith
  unfold roundHalfEven
  rw [hfl, if_neg (by linarith), if_neg (by linarith), if_pos hn]

/-- The rounding of a positive value that lies half-way between two
neighbours: the one with the even mantissa. -/
theorem f32_eq_of_tie_even {q : ℚ} (e n : ℤ) (hq : 0 < q) (he : -126 ≤ e)
    (hlo : (2 : ℚ) ^ e ≤ q) (hhi : q < 2 ^ (e + 1))
    (htie : q / 2 ^ (e - 23) = n + 1 / 2) (hn : n % 2 = 0) :
    f32 q = n * 2 ^ (e - 23) := by
  have hexp := f32Exponent_eq hq he hlo hhi
  unfold f32
  rw [if_neg (not_lt.mpr hq.le)]
  unfold f32Abs f32Quantum
  rw [hexp, roundHalfEven_tie_even htie hn]

theorem roundHalfEven_error (x : ℚ) : |(roundHalfEven x : ℚ) - x| ≤ 1 / 2 := by
  have h1 := Int.floor_le x
  have h2 := Int.lt_floor_add_one x
  unfold roundHalfEven
  rw [abs_le]
  split_ifs <;> push_cast <;> constructor <;> linarith

theorem f32Abs_error (q : ℚ) : |f32Abs q - q| ≤ f32Quantum q / 2 := by
  have hu := f32Quantum_pos q
  have h := roundHalfEven_error (q / f32Quantum q)
  have hsub : f32Abs q - q
      = ((roundHalfEven (q / f32Quantum q) : ℚ) - q / f32Quantum q) * f32Quantum q := by
    unfold f32Abs
    rw [sub_mul, div_mul_cancel₀ _ hu.ne']
  rw [hsub, abs_mul, abs_of_pos hu]
  calc |(roundHalfEven (q / f32Quantum q) : ℚ) - q / f32Quantum q| * f32Quantum q
      ≤ 1 / 2 * f32Quantum q := mul_le_mul_of_nonneg_right h hu.le
    _ = f32Quantum q / 2 := by ring

/-- The rounding error is at most half the spacing of the values around it. -/
theorem f32_error (q : ℚ) : |f32 q - q| ≤ f32Quantum |q| / 2 := by
  unfold f32
  split_ifs with hq
  · rw [abs_of_neg hq]
    have h := f32Abs_error (-q)
    rw [show -f32Abs (-q) - q = -(f32Abs (-q) - -q) by ring, abs_neg]
    exact h
  · rw [abs_of_nonneg (not_lt.mp hq)]
    exact f32Abs_error q

/-- A `float` is kept by the rounding. -/
theorem Float32.f32_val (v : Float32) : f32 v.val = v.val := by
  obtain ⟨r, hr⟩ := v.property
  rw [← hr, f32_idem]

theorem Float32.val_ofRat (q : ℚ) : (Float32.ofRat q).val = f32 q := rfl

theorem Float32.val_add (a b : Float32) : (Float32.add a b).val = f32 (a.val + b.val) := rfl

theorem Float32.val_sub (a b : Float32) : (Float32.sub a b).val = f32 (a.val - b.val) := rfl

theorem Float32.val_mul (a b : Float32) : (Float32.mul a b).val = f32 (a.val * b.val) := rfl

/-- A `float` that is at most an exact value is at most its rounding. -/
theorem Float32.le_f32 (v : Float32) {q : ℚ} (h : v.val ≤ q) : v.val ≤ f32 q := by
  rw [← Float32.f32_val v]
  exact f32_mono h

/-- The rounding of an exact value that is at most a `float` is at most it. -/
theorem Float32.f32_le (v : Float32) {q : ℚ} (h : q ≤ v.val) : f32 q ≤ v.val := by
  rw [← Float32.f32_val v]
  exact f32_mono h

/-- Small integers are `float` values. -/
theorem f32_intCast (n : ℤ) (hn : |n| < 2 ^ 24) : f32 (n : ℚ) = n := by
  have h := f32_dyadic n 0 (by norm_num) hn
  simpa using h

/-- A value written as `n * 2 ^ a` with a 24-bit `n` is a `float`. -/
theorem f32_exact (q : ℚ) (n a : ℤ) (hq : q = n * 2 ^ a) (ha : -149 ≤ a)
    (hn : |n| < 2 ^ 24) : f32 q = q := by
  rw [hq]
  exact f32_dyadic n a ha hn

theorem f32_ofNat (n : ℕ) [n.AtLeastTwo] (hn : n < 2 ^ 24) :
    f32 (OfNat.ofNat n : ℚ) = OfNat.ofNat n := by
  have h := f32_intCast (n : ℤ) (by rw [abs_of_nonneg (by positivity)]; exact_mod_cast hn)
  simpa using h

theorem f32_one : f32 1 = 1 := by
  simpa using f32_intCast 1 (by norm_num)

/-! ## Theorems: the text-edit widget -/

namespace TextEditComponent

@[simp] theorem onTextChanged_mText (font : Font) (c : TextEditComponent) :
    (onTextChanged font c).mText = c.mText := by
  unfold onTextChanged
  simp only []
  split_ifs <;> rfl

theorem onTextChanged_mCursor (font : Font) (c : TextEditComponent) :
    (onTextChanged font c).mCursor = min c.mCursor c.mText.length := by
  unfold onTextChanged
  simp only []
  split_ifs with h <;> simp only [] <;> omega

@[simp] theorem onCursorChanged_mText (font : Font) (c : TextEditComponent) :
    (onCursorChanged font c).mText = c.mText := by
  unfold onCursorChanged
  simp only []
  split_ifs <;> rfl

@[simp] theorem onCursorChanged_mCursor (font : Font) (c : TextEditComponent) :
    (onCursorChanged font c).mCursor = c.mCursor := by
  unfold onCursorChanged
  simp only []
  split_ifs <;> rfl

/-- After the two change notifications that end `textInput`, the text is the
same and the cursor is clamped to its length. -/
theorem notify_mText (font : Font) (c : TextEditComponent) :
    (onCursorChanged font (onTextChanged font c)).mText = c.mText := by
  simp

theorem notify_mCursor (font : Font) (c : TextEditComponent) :
    (onCursorChanged font (onTextChanged font c)).mCursor = min c.mCursor c.mText.length := by
  simp [onTextChanged_mCursor]

/-- C1. Cursor-in-bounds invariant. For every state and string `v`, after
`setValue(v)` the buffer is `v` and the cursor is the old cursor clamped to the
length of `v`, hence at most the buffer length. For every state whose cursor is
at most the buffer length and every input `t`, whenever `textInput(t)` has a
result its cursor is at most the length of its buffer; and it has a result as
soon as `Font::getPrevCursor` does not return a position behind the cursor. -/
theorem C1_cursor_in_bounds (font : Font) :
    (∀ (c : TextEditComponent) (v : CString),
        (setValue font c v).mText = v
        ∧ (setValue font c v).mCursor = min c.mCursor v.length
        ∧ (setValue font c v).mCursor ≤ (setValue font c v).mText.length)
    ∧ (∀ (c : TextEditComponent) (t : CString), c.mCursor ≤ c.mText.length →
        (∀ c1, textInput font c t = some c1 → c1.mCursor ≤ c1.mText.length)
        ∧ (font.getPrevCursor c.mText c.mCursor ≤ c.mCursor →
            ∃ c1, textInput font c t = some c1 ∧ c1.mCursor ≤ c1.mText.length)) := by
  have hpost : ∀ (c : TextEditComponent) (t : CString) (c1 : TextEditComponent),
      textInput font c t = some c1 → c1.mCursor ≤ c1.mText.length := by
    intro c t c1 h
    unfold textInput at h
    rcases hE : textInputEdit font c t with _ | c0
    · rw [hE] at h
      simp at h
    · rw [hE] at h
      simp only [Option.map_some', Option.some.injEq] at h
      subst h
      rw [notify_mCursor, notify_mText]
      exact min_le_right _ _
  refine ⟨?_, ?_⟩
  · intro c v
    refine ⟨?_, ?_, ?_⟩
    · simp [setValue]
    · simp [setValue, onTextChanged_mCursor]
    · simp [setValue, onTextChanged_mCursor]
  · intro c t hc
    refine ⟨hpost c t, ?_⟩
    intro hprev
    have hsome : ∃ c0, textInputEdit font c t = some c0 := by
      unfold textInputEdit
      by_cases hed : c.mEditing = true
      · by_cases hb : firstChar t = backspace
        · by_cases h0 : c.mCursor > 0
          · simp [hed, hb, h0, stringErase, hprev, hc]
          · simp [hed, hb, h0]
        · simp [hed, hb, stringInsert, hc]
      · simp [hed]
    obtain ⟨c0, h0⟩ := hsome
    have hres : textInput font c t = some (onCursorChanged font (onTextChanged font c0)) := by
      simp [textInput, h0]
    exact ⟨_, hres, hpost c t _ hres⟩

/-- C1 at a concrete input: `setValue` of a one-character string on the
sample component, and a backspace typed into it. -/
theorem C1_cursor_in_bounds_witness :
    (setValue monoFont sampleEdit ['x']).mCursor = 1
    ∧ ∃ c1, textInput monoFont sampleEdit [backspace] = some c1
        ∧ c1.mCursor ≤ c1.mText.length :=
  ⟨by
      rw [((C1_cursor_in_bounds monoFont).1 sampleEdit ['x']).2.1]
      decide,
    ((C1_cursor_in_bounds monoFont).2 sampleEdit [backspace] (by decide)).2 (by decide)⟩

/-- C2. Typing a backspace at cursor position 0 is a no-op: for every state
whose cursor is 0, editing or not, `textInput` of a string that starts with
`'\b'` has a result, with the same text buffer and the same cursor. -/
theorem C2_backspace_at_zero (font : Font) (c : TextEditComponent) (t : CString)
    (h0 : c.mCursor = 0) (hb : firstChar t = backspace) :
    ∃ c1, textInput font c t = some c1 ∧ c1.mText = c.mText ∧ c1.mCursor = c.mCursor := by
  have hE : ∃ c0, textInputEdit font c t = some c0 ∧ c0.mText = c.mText
      ∧ c0.mCursor = c.mCursor := by
    unfold textInputEdit
    by_cases hed : c.mEditing = true
    · simp [hed, hb, h0]
    · simp [hed]
  obtain ⟨c0, hc0, ht, hcur⟩ := hE
  refine ⟨onCursorChanged font (onTextChanged font c0), ?_, ?_, ?_⟩
  · simp [textInput, hc0]
  · rw [notify_mText, ht]
  · rw [notify_mCursor, hcur, h0]
    simp

/-- C2 at a concrete input: the sample component with its cursor moved to 0. -/
theorem C2_backspace_at_zero_witness :
    ∃ c1, textInput monoFont { sampleEdit with mCursor := 0 } [backspace, 'z'] = some c1
      ∧ c1.mText = ['a', 'b', 'c'] ∧ c1.mCursor = 0 :=
  C2_backspace_at_zero monoFont { sampleEdit with mCursor := 0 } [backspace, 'z'] rfl rfl

/-- C3. Insertion occurs at the cursor index: in an editing state with text
`s` and cursor `c ≤ length s`, `textInput` of a string `t` that does not start
with `'\b'` has a result whose text is `s[0..c) ++ t ++ s[c..)` and whose
cursor is `c + length t`; the buffer grows by exactly `length t`. -/
theorem C3_insert_at_cursor (font : Font) (c : TextEditComponent) (t : CString)
    (hed : c.mEditing = true) (hc : c.mCursor ≤ c.mText.length)
    (hb : firstChar t ≠ backspace) :
    ∃ c1, textInput font c t = some c1
      ∧ c1.mText = c.mText.take c.mCursor ++ t ++ c.mText.drop c.mCursor
      ∧ c1.mCursor = c.mCursor + t.length
      ∧ c1.mText.length = c.mText.length + t.length := by
  have hE : textInputEdit font c t = some
      { c with mCursorRepeatDir := 0,
               mText := c.mText.take c.mCursor ++ t ++ c.mText.drop c.mCursor,
               mCursor := c.mCursor + t.length } := by
    unfold textInputEdit
    simp [hed, hb, stringInsert, hc]
  have hlen : (c.mText.take c.mCursor ++ t ++ c.mText.drop c.mCursor).length
      = c.mText.length + t.length := by
    simp only [List.length_append, List.length_take, List.length_drop]
    omega
  have hres := congrArg (Option.map fun c0 => onCursorChanged font (onTextChanged font c0)) hE
  refine ⟨_, hres, ?_, ?_, ?_⟩
  · rw [notify_mText]
  · rw [notify_mCursor]
    simp only []
    rw [hlen]
    omega
  · rw [notify_mText]
    exact hlen

/-- C3 at a concrete input: `xy` typed into the sample component. -/
theorem C3_insert_at_cursor_witness :
    ∃ c1, textInput monoFont sampleEdit ['x', 'y'] = some c1
      ∧ c1.mText = ['a', 'b'] ++ ['x', 'y'] ++ ['c']
      ∧ c1.mCursor = 2 + 2
      ∧ c1.mText.length = 3 + 2 :=
  C3_insert_at_cursor monoFont sampleEdit ['x', 'y'] rfl (by decide) (by decide)

/-- C4. Deletion occurs at the cursor index: in an editing state with text `s`
and cursor `c`, `0 < c ≤ length s`, where `p = Font::getPrevCursor(s, c)` is
below `c`, `textInput` of a string that starts with `'\b'` has a result whose
text is `s[0..p) ++ s[c..)` and whose cursor is `p`. -/
theorem C4_delete_at_cursor (font : Font) (c : TextEditComponent) (t : CString)
    (hed : c.mEditing = true) (h0 : 0 < c.mCursor) (hc : c.mCursor ≤ c.mText.length)
    (hp : font.getPrevCursor c.mText c.mCursor < c.mCursor)
    (hb : firstChar t = backspace) :
    ∃ c1, textInput font c t = some c1
      ∧ c1.mText = c.mText.take (font.getPrevCursor c.mText c.mCursor)
          ++ c.mText.drop c.mCursor
      ∧ c1.mCursor = font.getPrevCursor c.mText c.mCursor := by
  have hE : textInputEdit font c t = some
      { c with mCursorRepeatDir := 0,
               mText := c.mText.take (font.getPrevCursor c.mText c.mCursor)
                 ++ c.mText.drop c.mCursor,
               mCursor := font.getPrevCursor c.mText c.mCursor } := by
    unfold textInputEdit
    simp [hed, hb, h0, stringErase, hc, le_of_lt hp]
  have hres := congrArg (Option.map fun c0 => onCursorChanged font (onTextChanged font c0)) hE
  refine ⟨_, hres, ?_, ?_⟩
  · rw [notify_mText]
  · rw [notify_mCursor]
    simp only [List.length_append, List.length_take, List.length_drop]
    omega

/-- C4 at a concrete input: a backspace typed into the sample component
removes the `b` before the cursor. -/
theorem C4_delete_at_cursor_witness :
    ∃ c1, textInput monoFont sampleEdit [backspace] = some c1
      ∧ c1.mText = ['a'] ++ ['c'] ∧ c1.mCursor = 1 :=
  C4_delete_at_cursor monoFont sampleEdit [backspace] rfl (by decide) (by decide)
    (by decide) rfl

theorem moveCursor_mCursorRepeatTimer (font : Font) (c : TextEditComponent) (amt : Int) :
    (moveCursor font c amt).mCursorRepeatTimer = c.mCursorRepeatTimer := by
  unfold moveCursor onCursorChanged
  simp only []
  split_ifs <;> rfl

theorem moveCursor_mCursorRepeatDir (font : Font) (c : TextEditComponent) (amt : Int) :
    (moveCursor font c amt).mCursorRepeatDir = c.mCursorRepeatDir := by
  unfold moveCursor onCursorChanged
  simp only []
  split_ifs <;> rfl

/-- Embeds `moveCursor` neither reads nor writes the repeat timer. -/
theorem moveCursor_setTimer (font : Font) (c : TextEditComponent) (amt τ : Int) :
    moveCursor font { c with mCursorRepeatTimer := τ } amt
      = { moveCursor font c amt with mCursorRepeatTimer := τ } := by
  unfold moveCursor onCursorChanged isMultiline getTextAreaSize
  simp only []
  split_ifs <;> rfl

theorem iterate_moveCursor_setTimer (font : Font) (amt τ : Int) (k : Nat)
    (c : TextEditComponent) :
    (fun s => moveCursor font s amt)^[k] { c with mCursorRepeatTimer := τ }
      = { (fun s => moveCursor font s amt)^[k] c with mCursorRepeatTimer := τ } := by
  induction k generalizing c with
  | zero => rfl
  | succ k ih =>
    rw [Function.iterate_succ_apply, Function.iterate_succ_apply, moveCursor_setTimer, ih]

theorem iterate_moveCursor_mCursorRepeatDir (font : Font) (amt : Int) (k : Nat)
    (c : TextEditComponent) :
    ((fun s => moveCursor font s amt)^[k] c).mCursorRepeatDir = c.mCursorRepeatDir := by
  induction k generalizing c with
  | zero => rfl
  | succ k ih => rw [Function.iterate_succ_apply, ih, moveCursor_mCursorRepeatDir]

/-- The loop of `updateCursorRepeat`, run from a timer in `[28 k, 28 (k + 1))`
(or below 28 when `k = 0`), moves the cursor `k` times and lowers the timer by
`28 k`. -/
theorem cursorRepeatLoop_eq (font : Font) (d : Int) (k : Nat) :
    ∀ c : TextEditComponent, c.mCursorRepeatDir = d →
      c.mCursorRepeatTimer < 28 * (k + 1) → (k = 0 ∨ 28 * (k : Int) ≤ c.mCursorRepeatTimer) →
      cursorRepeatLoop font c
        = { (fun s => moveCursor font s d)^[k] c with
            mCursorRepeatTimer := c.mCursorRepeatTimer - 28 * k } := by
  induction k with
  | zero =>
    intro c _ hlt _
    rw [cursorRepeatLoop]
    have hnot : ¬ c.mCursorRepeatTimer ≥ CURSOR_REPEAT_SPEED := by
      show ¬ c.mCursorRepeatTimer ≥ 28
      omega
    simp [hnot]
  | succ k ih =>
    intro c hd hlt hge
    have hge28 : c.mCursorRepeatTimer ≥ CURSOR_REPEAT_SPEED := by
      show c.mCursorRepeatTimer ≥ 28
      rcases hge with h | h
      · omega
      · push_cast at h
        omega
    rw [cursorRepeatLoop]
    simp only [hge28, dite_true]
    rw [ih]
    · rw [iterate_moveCursor_setTimer, Function.iterate_succ_apply, hd,
        moveCursor_mCursorRepeatTimer]
      show _ = { (fun s => moveCursor font s d)^[k] (moveCursor font c d) with
        mCursorRepeatTimer := c.mCursorRepeatTimer - 28 * ((k + 1 : Nat) : Int) }
      have harith : c.mCursorRepeatTimer - CURSOR_REPEAT_SPEED - 28 * (k : Int)
          = c.mCursorRepeatTimer - 28 * ((k + 1 : Nat) : Int) := by
        show c.mCursorRepeatTimer - 28 - 28 * (k : Int) = _
        push_cast
        ring
      rw [← harith]
    · simp only [moveCursor_mCursorRepeatDir, hd]
    · simp only [moveCursor_mCursorRepeatTimer]
      show c.mCursorRepeatTimer - 28 < 28 * ((k : Int) + 1)
      push_cast at hlt
      omega
    · simp only [moveCursor_mCursorRepeatTimer]
      right
      show 28 * (k : Int) ≤ c.mCursorRepeatTimer - 28
      rcases hge with h | h
      · omega
      · push_cast at h
        omega

theorem setTimer_self (c : TextEditComponent) (τ : Int) (h : c.mCursorRepeatTimer = τ) :
    ({ c with mCursorRepeatTimer := τ } : TextEditComponent) = c := by
  subst h
  rfl

/-- The loop of `updateCursorRepeat` entered with the timer set to `τ`. -/
theorem cursorRepeatLoop_setTimer (font : Font) (d : Int) (k : Nat) (c : TextEditComponent)
    (τ : Int) (hd : c.mCursorRepeatDir = d) (hlt : τ < 28 * ((k : Int) + 1))
    (hge : k = 0 ∨ 28 * (k : Int) ≤ τ) :
    cursorRepeatLoop font { c with mCursorRepeatTimer := τ }
      = { (fun s => moveCursor font s d)^[k] c with mCursorRepeatTimer := τ - 28 * k } := by
  have h := cursorRepeatLoop_eq font d k { c with mCursorRepeatTimer := τ } hd hlt hge
  rw [iterate_moveCursor_setTimer] at h
  exact h

/-- One `update` with a non-negative `deltaTime`, from a state that is `n`
moves after `p` with a timer `r < 28`: it is `k` moves further, for the `k`
that brings the timer back below 28. -/
theorem update_step (font : Font) (d : Int) (hd : d ≠ 0) (p : TextEditComponent)
    (hp : p.mCursorRepeatDir = d) (n : Nat) (r dt : Int) (hdt : 0 ≤ dt) (hr : r < 28)
    (hn : n = 0 ∨ 0 ≤ r) :
    ∃ (n1 : Nat) (r1 : Int),
      update font { (fun s => moveCursor font s d)^[n] p with mCursorRepeatTimer := r } dt
          = { (fun s => moveCursor font s d)^[n1] p with mCursorRepeatTimer := r1 }
        ∧ r1 < 28 ∧ (n1 = 0 ∨ 0 ≤ r1) ∧ r1 + 28 * (n1 : Int) = r + 28 * (n : Int) + dt := by
  have hdir : ((fun s => moveCursor font s d)^[n] p).mCursorRepeatDir = d := by
    rw [iterate_moveCursor_mCursorRepeatDir, hp]
  have hk : ∃ k : Nat, r + dt < 28 * ((k : Int) + 1) ∧ (k = 0 ∨ 28 * (k : Int) ≤ r + dt) := by
    by_cases hlt : r + dt < 28
    · exact ⟨0, by omega, Or.inl rfl⟩
    · refine ⟨((r + dt) / 28).toNat, ?_, Or.inr ?_⟩ <;> omega
  obtain ⟨k, hk1, hk2⟩ := hk
  refine ⟨k + n, r + dt - 28 * k, ?_, by omega, by omega, by push_cast; ring⟩
  unfold update updateCursorRepeat
  have hne : ¬ ({ (fun s => moveCursor font s d)^[n] p with
      mCursorRepeatTimer := r } : TextEditComponent).mCursorRepeatDir = 0 := by
    show ¬ ((fun s => moveCursor font s d)^[n] p).mCursorRepeatDir = 0
    rw [hdir]
    exact hd
  rw [if_neg hne]
  show cursorRepeatLoop font
    { (fun s => moveCursor font s d)^[n] p with mCursorRepeatTimer := r + dt } = _
  rw [cursorRepeatLoop_setTimer font d k _ _ hdir hk1 hk2, Function.iterate_add_apply]

/-- A run of `update` calls with non-negative `deltaTime` values keeps the
shape "some number of moves after `p`, timer below 28", and the timer plus 28
times the number of moves grows by the elapsed time. -/
theorem updates_invariant (font : Font) (d : Int) (hd : d ≠ 0) (p : TextEditComponent)
    (hp : p.mCursorRepeatDir = d) :
    ∀ (dts : List Int) (n : Nat) (r : Int), (∀ dt ∈ dts, 0 ≤ dt) → r < 28 →
      (n = 0 ∨ 0 ≤ r) →
      ∃ (n1 : Nat) (r1 : Int),
        updates font { (fun s => moveCursor font s d)^[n] p with mCursorRepeatTimer := r } dts
            = { (fun s => moveCursor font s d)^[n1] p with mCursorRepeatTimer := r1 }
          ∧ r1 < 28 ∧ (n1 = 0 ∨ 0 ≤ r1)
          ∧ r1 + 28 * (n1 : Int) = r + 28 * (n : Int) + dts.sum := by
  intro dts
  induction dts with
  | nil =>
    intro n r _ hr hn
    exact ⟨n, r, rfl, hr, hn, by simp⟩
  | cons dt dts ih =>
    intro n r hall hr hn
    obtain ⟨n1, r1, hstep, hr1, hn1, hsum1⟩ :=
      update_step font d hd p hp n r dt (hall dt (List.mem_cons_self _ _)) hr hn
    obtain ⟨n2, r2, hrun, hr2, hn2, hsum2⟩ :=
      ih n1 r1 (fun x hx => hall x (List.mem_cons_of_mem _ hx)) hr1 hn1
    refine ⟨n2, r2, ?_, hr2, hn2, ?_⟩
    · unfold updates at hrun ⊢
      rw [List.foldl_cons, hstep, hrun]
    · rw [List.sum_cons]
      omega

/-- C5. Cursor repeat begins after a fixed delay and then fires at a fixed
interval. A non-zero press mapped to left or right while editing (and to none
of the keys handled before it) is consumed, sets the repeat direction `d` to -1
(left) or 1 (right), sets the timer to -472 and moves the cursor once by `d`.
After any run of `update` calls with non-negative `deltaTime` values summing to
`T`, the component is exactly the one reached from there by `n` further
`moveCursor(d)` calls, `n = 0` when `T < 500` and `n = (T - 500) / 28 + 1` when
`T ≥ 500`, with the timer at `T - 472 - 28 n`, which is less than 28. -/
theorem C5_cursor_repeat (font : Font) (c : TextEditComponent) (config : InputConfig)
    (inp : Input) (dts : List Int)
    (hed : c.mEditing = true) (hv : inp.value ≠ 0)
    (hret : ¬ (config.getDeviceId = DEVICE_KEYBOARD ∧ inp.id = SDLK_RETURN))
    (hesc : ¬ ((config.getDeviceId = DEVICE_KEYBOARD ∧ inp.id = SDLK_ESCAPE)
      ∨ (config.getDeviceId ≠ DEVICE_KEYBOARD ∧ config.isMappedTo "b" inp = true)))
    (hup : config.isMappedTo "up" inp = false) (hdown : config.isMappedTo "down" inp = false)
    (hlr : config.isMappedTo "left" inp = true ∨ config.isMappedTo "right" inp = true)
    (hdts : ∀ dt ∈ dts, 0 ≤ dt) :
    ∃ (d : Int) (pressed : TextEditComponent) (n : Nat),
      d = (if config.isMappedTo "left" inp = true then -1 else 1)
      ∧ pressed = moveCursor font
          { c with mCursorRepeatDir := d, mCursorRepeatTimer := -472 } d
      ∧ input font c config inp = some (true, pressed)
      ∧ n = (if dts.sum < 500 then 0 else ((dts.sum - 500) / 28).toNat + 1)
      ∧ updates font pressed dts
          = { (fun s => moveCursor font s d)^[n] pressed with
              mCursorRepeatTimer := dts.sum - 472 - 28 * n }
      ∧ (updates font pressed dts).mCursorRepeatTimer < 28 := by
  have hd : (if config.isMappedTo "left" inp = true then (-1 : Int) else 1) ≠ 0 := by
    split_ifs <;> decide
  generalize hdef : (if config.isMappedTo "left" inp = true then (-1 : Int) else 1) = d at hd
  have hinput : input font c config inp = some (true, moveCursor font
      { c with mCursorRepeatDir := d, mCursorRepeatTimer := -472 } d) := by
    unfold input
    have hlr2 : (config.isMappedTo "left" inp || config.isMappedTo "right" inp) = true := by
      rcases hlr with h | h <;> simp [h]
    have hesc2 : ¬ ((config.getDeviceId = DEVICE_KEYBOARD ∧ inp.id = SDLK_ESCAPE)
        ∨ (config.getDeviceId ≠ DEVICE_KEYBOARD ∧ config.isMappedTo "b" inp = true)) := hesc
    rw [if_neg hv]
    have ha : ¬ ((config.isMappedTo "a" inp && c.mFocused && !c.mEditing) = true) := by
      simp [hed]
    rw [if_neg ha, if_pos hed, if_neg hret, if_neg hesc2]
    simp only [hup, hdown, hlr2, if_true, Bool.false_eq_true, if_false]
    rw [← hdef]
    rfl
  have hpdir : (moveCursor font
      { c with mCursorRepeatDir := d, mCursorRepeatTimer := -472 } d).mCursorRepeatDir = d := by
    rw [moveCursor_mCursorRepeatDir]
  have hptimer : (moveCursor font
      { c with mCursorRepeatDir := d, mCursorRepeatTimer := -472 } d).mCursorRepeatTimer
        = -472 := by
    rw [moveCursor_mCursorRepeatTimer]
  obtain ⟨n, r, hrun, hr, hn, hsum⟩ :=
    updates_invariant font d hd _ hpdir dts 0 (-472) hdts (by decide) (Or.inl rfl)
  have hstart : ({ (fun s => moveCursor font s d)^[0] (moveCursor font
      { c with mCursorRepeatDir := d, mCursorRepeatTimer := -472 } d) with
        mCursorRepeatTimer := -472 } : TextEditComponent)
      = moveCursor font { c with mCursorRepeatDir := d, mCursorRepeatTimer := -472 } d := by
    rw [Function.iterate_zero_apply]
    exact setTimer_self _ _ hptimer
  rw [hstart] at hrun
  have hnval : n = (if dts.sum < 500 then 0 else ((dts.sum - 500) / 28).toNat + 1) := by
    split_ifs with hT <;> omega
  have hrval : r = dts.sum - 472 - 28 * (n : Int) := by omega
  refine ⟨d, _, n, rfl, rfl, hinput, hnval, ?_, ?_⟩
  · rw [hrun, hrval]
  · rw [hrun]
    exact hr

/-- C5 at a concrete input: the left key pressed in the sample component,
then three updates of 300, 200 and 28 milliseconds: two repeat moves. -/
theorem C5_cursor_repeat_witness :
    ∃ (pressed : TextEditComponent),
      input monoFont sampleEdit sampleConfig { id := 1, value := 1 } = some (true, pressed)
      ∧ updates monoFont pressed [300, 200, 28]
          = { (fun s => moveCursor monoFont s (-1))^[2] pressed with mCursorRepeatTimer := 0 }
      ∧ (updates monoFont pressed [300, 200, 28]).mCursorRepeatTimer < 28 := by
  obtain ⟨d, pressed, n, hd, _, hinput, hn, hrun, htimer⟩ :=
    C5_cursor_repeat monoFont sampleEdit sampleConfig { id := 1, value := 1 } [300, 200, 28]
      rfl (by decide) (by decide) (by decide) (by decide) (by decide) (Or.inl (by decide))
      (by decide)
  have hd1 : d = -1 := by
    rw [hd]
    decide
  have hn2 : n = 2 := by
    rw [hn]
    decide
  subst hd1
  subst hn2
  exact ⟨pressed, hinput, hrun, htimer⟩

/-- C6, amended. In single-line mode, with text-area width `w ≥ 0`, `x` the
rendered width of the text before the cursor, `o` the horizontal scroll offset
before `onCursorChanged` and `o1` the one after it: `o1 ≤ x`; if the cursor was
left of the visible area (`x < o`) then `o1 = x`; if it was not right of it
(`x ≤ o + w`) then `x ≤ o1 + w`; if the test of the code finds it right of the
visible area (`fl(o + w) < x` in `float`) then `o1` is `fl(x - w)`, the `float`
nearest to `x - w`, at most half a spacing away from it, and `o ≤ o1`;
otherwise the test of the code passes afterwards, `x ≤ fl(o1 + w)`. -/
theorem C6_single_line_scroll (font : Font) (c : TextEditComponent)
    (hsingle : isMultiline font c = false) (hw : 0 ≤ (getTextAreaSize c).x.val)
    (x w o o1 : Float32) (hx : x = (font.sizeText (c.mText.take c.mCursor)).x)
    (hwd : w = (getTextAreaSize c).x) (ho : o = c.mScrollOffset.x)
    (ho1 : o1 = (onCursorChanged font c).mScrollOffset.x) :
    o1.val ≤ x.val
    ∧ (x.val < o.val → o1 = x)
    ∧ (x.val ≤ o.val + w.val → x.val ≤ o1.val + w.val)
    ∧ (f32 (o.val + w.val) < x.val →
        o1.val = f32 (x.val - w.val) ∧ o.val ≤ o1.val
        ∧ |o1.val - (x.val - w.val)| ≤ f32Quantum |x.val - w.val| / 2)
    ∧ (¬ f32 (o.val + w.val) < x.val → x.val ≤ f32 (o1.val + w.val)) := by
  subst hx hwd ho ho1
  unfold onCursorChanged
  simp only [hsingle, Bool.false_eq_true, if_false]
  split_ifs with h1 h2
  · have h1v : f32 (c.mScrollOffset.x.val + (getTextAreaSize c).x.val)
        < (font.sizeText (c.mText.take c.mCursor)).x.val := h1
    have hright : c.mScrollOffset.x.val + (getTextAreaSize c).x.val
        < (font.sizeText (c.mText.take c.mCursor)).x.val := by
      by_contra hcon
      exact absurd h1v (not_lt.mpr (Float32.le_f32 _ (not_lt.mp hcon)))
    refine ⟨?_, ?_, ?_, ?_, ?_⟩
    · exact Float32.f32_le _ (by linarith)
    · intro hleft
      linarith
    · intro hin
      linarith
    · intro _
      refine ⟨rfl, ?_, ?_⟩
      · exact Float32.le_f32 _ (by linarith)
      · exact f32_error _
    · intro hn
      exact absurd h1v hn
  · have h1v : ¬ f32 (c.mScrollOffset.x.val + (getTextAreaSize c).x.val)
        < (font.sizeText (c.mText.take c.mCursor)).x.val := h1
    refine ⟨le_refl _, fun _ => rfl, ?_, ?_, ?_⟩
    · intro _
      simp only []
      linarith
    · intro h
      exact absurd h h1v
    · intro _
      exact Float32.le_f32 _ (by simp only []; linarith)
  · have h1v : ¬ f32 (c.mScrollOffset.x.val + (getTextAreaSize c).x.val)
        < (font.sizeText (c.mText.take c.mCursor)).x.val := h1
    refine ⟨not_lt.mp h2, ?_, fun hin => hin, ?_, ?_⟩
    · intro hleft
      exact absurd hleft h2
    · intro h
      exact absurd h h1v
    · intro _
      exact not_lt.mp h1v

/-- C7, amended. In multi-line mode, when the font height `f` is at most the
text-area height `h`, with `y` the wrapped-text vertical offset of the cursor,
`o` the vertical scroll offset before `onCursorChanged` and `o1` the one after
it: if the bottom of the cursor line was not below the visible area
(`y + f ≤ o + h`) then `o1 ≤ y` and `y + f ≤ o1 + h`; if its top was above the
visible area (`y < o`) then `o1 = y`; if the test of the code finds the line
below the visible area (`fl(o + h) < fl(y + f)` in `float`) then `o1` is
`fl(fl(y - h) + f)`, which is `y - h + f` up to the two roundings; otherwise
`o1 ≤ y` and the test of the code passes afterwards, `fl(y + f) ≤ fl(o1 + h)`. -/
theorem C7_multi_line_scroll (font : Font) (c : TextEditComponent)
    (hmulti : isMultiline font c = true)
    (hfit : font.getHeight.val ≤ (getTextAreaSize c).y.val)
    (y h f o o1 : Float32)
    (hy : y = (font.getWrappedTextCursorOffset c.mText (getTextAreaSize c).x c.mCursor).y)
    (hh : h = (getTextAreaSize c).y) (hf : f = font.getHeight)
    (ho : o = c.mScrollOffset.y) (ho1 : o1 = (onCursorChanged font c).mScrollOffset.y) :
    (y.val + f.val ≤ o.val + h.val → o1.val ≤ y.val ∧ y.val + f.val ≤ o1.val + h.val)
    ∧ (y.val < o.val → o1 = y)
    ∧ (f32 (o.val + h.val) < f32 (y.val + f.val) →
        o1.val = f32 (f32 (y.val - h.val) + f.val)
        ∧ |o1.val - (y.val - h.val + f.val)|
            ≤ f32Quantum |y.val - h.val| / 2 + f32Quantum |f32 (y.val - h.val) + f.val| / 2)
    ∧ (¬ f32 (o.val + h.val) < f32 (y.val + f.val) →
        o1.val ≤ y.val ∧ f32 (y.val + f.val) ≤ f32 (o1.val + h.val)) := by
  subst hy hh hf ho ho1
  unfold onCursorChanged
  simp only [hmulti, if_true]
  split_ifs with h1 h2
  · have h1v : f32 (c.mScrollOffset.y.val + (getTextAreaSize c).y.val)
        < f32 ((font.getWrappedTextCursorOffset c.mText (getTextAreaSize c).x
            c.mCursor).y.val + font.getHeight.val) := h1
    refine ⟨?_, ?_, ?_, ?_⟩
    · intro hin
      exact absurd h1v (not_lt.mpr (f32_mono hin))
    · intro htop
      exact absurd h1v (not_lt.mpr (f32_mono (by linarith)))
    · intro _
      refine ⟨rfl, ?_⟩
      have e1 := f32_error ((font.getWrappedTextCursorOffset c.mText (getTextAreaSize c).x
        c.mCursor).y.val - (getTextAreaSize c).y.val)
      have e2 := f32_error (f32 ((font.getWrappedTextCursorOffset c.mText
        (getTextAreaSize c).x c.mCursor).y.val - (getTextAreaSize c).y.val)
          + font.getHeight.val)
      show |f32 (f32 ((font.getWrappedTextCursorOffset c.mText (getTextAreaSize c).x
        c.mCursor).y.val - (getTextAreaSize c).y.val) + font.getHeight.val) - _| ≤ _
      rw [abs_le] at e1 e2 ⊢
      constructor <;> linarith [e1.1, e1.2, e2.1, e2.2]
    · intro hn
      exact absurd h1v hn
  · have h1v : ¬ f32 (c.mScrollOffset.y.val + (getTextAreaSize c).y.val)
        < f32 ((font.getWrappedTextCursorOffset c.mText (getTextAreaSize c).x
            c.mCursor).y.val + font.getHeight.val) := h1
    refine ⟨?_, fun _ => rfl, ?_, ?_⟩
    · intro _
      simp only []
      exact ⟨le_refl _, by linarith⟩
    · intro h
      exact absurd h h1v
    · intro _
      exact ⟨le_refl _, f32_mono (by simp only []; linarith)⟩
  · have h1v : ¬ f32 (c.mScrollOffset.y.val + (getTextAreaSize c).y.val)
        < f32 ((font.getWrappedTextCursorOffset c.mText (getTextAreaSize c).x
            c.mCursor).y.val + font.getHeight.val) := h1
    refine ⟨fun hin => ⟨not_lt.mp h2, hin⟩, ?_, ?_, ?_⟩
    · intro htop
      exact absurd htop h2
    · intro h
      exact absurd h h1v
    · intro _
      exact ⟨not_lt.mp h2, not_lt.mp h1v⟩

/-- C8. The scroll offset adjusts only when the cursor would fall outside the
visible text area. If the cursor is already inside it (single-line:
`o.x ≤ x ≤ o.x + w`; multi-line: `o.y ≤ y` and `y + f ≤ o.y + h`, in exact
arithmetic), `onCursorChanged` changes nothing. In every case it changes at
most the horizontal offset in single-line mode and at most the vertical offset
in multi-line mode: every other member, the text and the cursor included, is
kept. -/
theorem C8_scroll_frame (font : Font) (c : TextEditComponent) :
    (isMultiline font c = false →
        c.mScrollOffset.x.val ≤ (font.sizeText (c.mText.take c.mCursor)).x.val →
        (font.sizeText (c.mText.take c.mCursor)).x.val
          ≤ c.mScrollOffset.x.val + (getTextAreaSize c).x.val →
        onCursorChanged font c = c)
    ∧ (isMultiline font c = true →
        c.mScrollOffset.y.val
          ≤ (font.getWrappedTextCursorOffset c.mText (getTextAreaSize c).x c.mCursor).y.val →
        (font.getWrappedTextCursorOffset c.mText (getTextAreaSize c).x c.mCursor).y.val
            + font.getHeight.val
          ≤ c.mScrollOffset.y.val + (getTextAreaSize c).y.val →
        onCursorChanged font c = c)
    ∧ (isMultiline font c = false →
        onCursorChanged font c
          = { c with mScrollOffset :=
                { c.mScrollOffset with x := (onCursorChanged font c).mScrollOffset.x } })
    ∧ (isMultiline font c = true →
        onCursorChanged font c
          = { c with mScrollOffset :=
                { c.mScrollOffset with y := (onCursorChanged font c).mScrollOffset.y } })
    ∧ (onCursorChanged font c).mText = c.mText
    ∧ (onCursorChanged font c).mCursor = c.mCursor := by
  refine ⟨?_, ?_, ?_, ?_, onCursorChanged_mText font c, onCursorChanged_mCursor font c⟩
  · intro hs hlo hhi
    unfold onCursorChanged
    simp only [hs, Bool.false_eq_true, if_false]
    have hno : ¬ (Float32.add c.mScrollOffset.x (getTextAreaSize c).x).val
        < (font.sizeText (c.mText.take c.mCursor)).x.val :=
      not_lt.mpr (Float32.le_f32 _ hhi)
    rw [if_neg hno, if_neg (not_lt.mpr hlo)]
  · intro hm hlo hhi
    unfold onCursorChanged
    simp only [hm, if_true]
    have hno : ¬ (Float32.add c.mScrollOffset.y (getTextAreaSize c).y).val
        < (Float32.add (font.getWrappedTextCursorOffset c.mText (getTextAreaSize c).x
            c.mCursor).y font.getHeight).val :=
      not_lt.mpr (f32_mono hhi)
    rw [if_neg hno, if_neg (not_lt.mpr hlo)]
  · intro hs
    unfold onCursorChanged
    simp only [hs, Bool.false_eq_true, if_false]
    split_ifs <;> rfl
  · intro hm
    unfold onCursorChanged
    simp only [hm, if_true]
    split_ifs <;> rfl

/-- The sample component is single-line under `monoFont`, whatever its scroll
offset: 22 is not above `fl(20 * 1.25) = 25`. -/
theorem sampleEdit_singleLine (off : Vector2f) :
    isMultiline monoFont { sampleEdit with mScrollOffset := off } = false := by
  unfold isMultiline
  rw [decide_eq_false_iff_not]
  show ¬ f32 22 > f32 (f32 20 * f32 (5 / 4))
  rw [f32_ofNat 22 (by norm_num), f32_ofNat 20 (by norm_num),
    f32_exact (5 / 4) 5 (-2) (by norm_num) (by norm_num) (by norm_num),
    show (20 : ℚ) * (5 / 4) = 25 by norm_num, f32_ofNat 25 (by norm_num)]
  norm_num

/-- The text area of the sample component is `fl(256 - 10) = 246` wide. -/
theorem sampleEdit_textAreaWidth (off : Vector2f) :
    (getTextAreaSize { sampleEdit with mScrollOffset := off }).x.val = 246 := by
  show f32 (f32 256 - f32 10) = 246
  rw [f32_ofNat 256 (by norm_num), f32_ofNat 10 (by norm_num),
    show (256 : ℚ) - 10 = 246 by norm_num, f32_ofNat 246 (by norm_num)]

/-- The text before the cursor of the sample component is 20 wide. -/
theorem sampleEdit_cursorWidth :
    (monoFont.sizeText (List.take 2 ['a', 'b', 'c'])).x.val = 20 := by
  show f32 (10 * ((List.take 2 ['a', 'b', 'c']).length : ℚ)) = 20
  rw [show (10 : ℚ) * ((List.take 2 ['a', 'b', 'c']).length : ℚ) = 20 by norm_num,
    f32_ofNat 20 (by norm_num)]

/-- C6, as stated, fails. A single-line component 2221381/32768 wide has a text
area of `w = 1893701/32768`; with the text before the cursor
`x = 14528785/16384` wide and no scroll, the cursor is right of the visible
area and `onCursorChanged` stores `fl(x - w) = 6790967/8192`: the exact
difference 27163869/32768 lies half-way between two `float` values and rounds
down. The stored offset is not `x - w`, and `x ≤ o1 + w` fails. -/
theorem C6_single_line_scroll_counterexample :
    isMultiline wideTextFont narrowEdit = false
    ∧ (getTextAreaSize narrowEdit).x.val = 1893701 / 32768
    ∧ (wideTextFont.sizeText (narrowEdit.mText.take narrowEdit.mCursor)).x.val
        = 14528785 / 16384
    ∧ narrowEdit.mScrollOffset.x.val = 0
    ∧ (onCursorChanged wideTextFont narrowEdit).mScrollOffset.x.val = 6790967 / 8192
    ∧ ¬ ((onCursorChanged wideTextFont narrowEdit).mScrollOffset.x.val
          ≤ (wideTextFont.sizeText (narrowEdit.mText.take narrowEdit.mCursor)).x.val
        ∧ (wideTextFont.sizeText (narrowEdit.mText.take narrowEdit.mCursor)).x.val
          ≤ (onCursorChanged wideTextFont narrowEdit).mScrollOffset.x.val
              + (getTextAreaSize narrowEdit).x.val
        ∧ (narrowEdit.mScrollOffset.x.val + (getTextAreaSize narrowEdit).x.val
              < (wideTextFont.sizeText (narrowEdit.mText.take narrowEdit.mCursor)).x.val →
            (onCursorChanged wideTextFont narrowEdit).mScrollOffset.x.val
              = (wideTextFont.sizeText (narrowEdit.mText.take narrowEdit.mCursor)).x.val
                  - (getTextAreaSize narrowEdit).x.val)) := by
  have hs : isMultiline wideTextFont narrowEdit = false := by
    unfold isMultiline
    rw [decide_eq_false_iff_not]
    show ¬ f32 22 > f32 (f32 20 * f32 (5 / 4))
    rw [f32_ofNat 22 (by norm_num), f32_ofNat 20 (by norm_num),
      f32_exact (5 / 4) 5 (-2) (by norm_num) (by norm_num) (by norm_num),
      show (20 : ℚ) * (5 / 4) = 25 by norm_num, f32_ofNat 25 (by norm_num)]
    norm_num
  have hw : (getTextAreaSize narrowEdit).x.val = 1893701 / 32768 := by
    show f32 (f32 (2221381 / 32768) - f32 10) = 1893701 / 32768
    rw [f32_exact (2221381 / 32768) 2221381 (-15) (by norm_num) (by norm_num) (by norm_num),
      f32_ofNat 10 (by norm_num),
      show (2221381 / 32768 : ℚ) - 10 = 1893701 / 32768 by norm_num,
      f32_exact (1893701 / 32768) 1893701 (-15) (by norm_num) (by norm_num) (by norm_num)]
  have hx : (wideTextFont.sizeText (narrowEdit.mText.take narrowEdit.mCursor)).x.val
      = 14528785 / 16384 := by
    show f32 (14528785 / 16384) = 14528785 / 16384
    exact f32_exact _ 14528785 (-14) (by norm_num) (by norm_num) (by norm_num)
  have ho : narrowEdit.mScrollOffset.x.val = 0 := by
    show f32 0 = 0
    exact f32_zero
  have ho1 : (onCursorChanged wideTextFont narrowEdit).mScrollOffset.x.val
      = 6790967 / 8192 := by
    have hbranch : (Float32.add narrowEdit.mScrollOffset.x (getTextAreaSize narrowEdit).x).val
        < (wideTextFont.sizeText (narrowEdit.mText.take narrowEdit.mCursor)).x.val := by
      rw [Float32.val_add, ho, hw, hx, zero_add,
        f32_exact (1893701 / 32768) 1893701 (-15) (by norm_num) (by norm_num) (by norm_num)]
      norm_num
    unfold onCursorChanged
    simp only [hs, Bool.false_eq_true, if_false]
    rw [if_pos hbranch]
    show (Float32.sub (wideTextFont.sizeText (narrowEdit.mText.take narrowEdit.mCursor)).x
      (getTextAreaSize narrowEdit).x).val = 6790967 / 8192
    rw [Float32.val_sub, hx, hw,
      show (14528785 / 16384 : ℚ) - 1893701 / 32768 = 27163869 / 32768 by norm_num,
      f32_eq_of_tie_even (q := 27163869 / 32768) 9 13581934 (by norm_num) (by norm_num)
        (by norm_num) (by norm_num) (by norm_num) (by norm_num)]
    norm_num
  refine ⟨hs, hw, hx, ho, ho1, ?_⟩
  rintro ⟨_, h2, _⟩
  rw [hx, ho1, hw] at h2
  norm_num at h2

/-- C6 (amended) at a concrete input: the sample component scrolled to 500, so
that the cursor (at 20) is left of the visible area; the offset becomes the
cursor position. -/
theorem C6_single_line_scroll_witness :
    (onCursorChanged monoFont
        { sampleEdit with
          mScrollOffset := { x := Float32.ofRat 500, y := Float32.ofRat 0 } }).mScrollOffset.x
      = (monoFont.sizeText (List.take 2 ['a', 'b', 'c'])).x :=
  (C6_single_line_scroll monoFont
    { sampleEdit with mScrollOffset := { x := Float32.ofRat 500, y := Float32.ofRat 0 } }
    (sampleEdit_singleLine _)
    (by rw [sampleEdit_textAreaWidth]; norm_num)
    _ _ _ _ rfl rfl rfl rfl).2.1
    (by
      show (monoFont.sizeText (List.take 2 ['a', 'b', 'c'])).x.val < f32 500
      rw [sampleEdit_cursorWidth, f32_ofNat 500 (by norm_num)]
      norm_num)

/-- C7, as stated, fails, in two ways. With a font 2 high, a component of
height 3 is multi-line and its text area is 1 high: for a cursor line at 0 and
no scroll, `onCursorChanged` sets the vertical offset to `0 - 1 + 2 = 1`, below
the top of the cursor line. And where a line fits (font height 18, text area
10544839/131072 high), for a cursor line at 288 and no scroll the stored offset
is `fl(fl(288 - h) + 18) = 3695399/16384`, the first difference rounding down,
which leaves the bottom of the line just below the visible area. -/
theorem C7_multi_line_scroll_counterexample :
    (isMultiline tinyFont tinyEdit = true
      ∧ (onCursorChanged tinyFont tinyEdit).mScrollOffset.y.val = 1
      ∧ (tinyFont.getWrappedTextCursorOffset tinyEdit.mText (getTextAreaSize tinyEdit).x
          tinyEdit.mCursor).y.val = 0
      ∧ ¬ ((onCursorChanged tinyFont tinyEdit).mScrollOffset.y.val
            ≤ (tinyFont.getWrappedTextCursorOffset tinyEdit.mText (getTextAreaSize tinyEdit).x
                tinyEdit.mCursor).y.val
          ∧ (tinyFont.getWrappedTextCursorOffset tinyEdit.mText (getTextAreaSize tinyEdit).x
                tinyEdit.mCursor).y.val + tinyFont.getHeight.val
            ≤ (onCursorChanged tinyFont tinyEdit).mScrollOffset.y.val
                + (getTextAreaSize tinyEdit).y.val))
    ∧ (isMultiline tallLineFont tallEdit = true
      ∧ tallLineFont.getHeight.val ≤ (getTextAreaSize tallEdit).y.val
      ∧ (getTextAreaSize tallEdit).y.val = 10544839 / 131072
      ∧ (onCursorChanged tallLineFont tallEdit).mScrollOffset.y.val = 3695399 / 16384
      ∧ ¬ ((onCursorChanged tallLineFont tallEdit).mScrollOffset.y.val
            ≤ (tallLineFont.getWrappedTextCursorOffset tallEdit.mText
                (getTextAreaSize tallEdit).x tallEdit.mCursor).y.val
          ∧ (tallLineFont.getWrappedTextCursorOffset tallEdit.mText
                (getTextAreaSize tallEdit).x tallEdit.mCursor).y.val
              + tallLineFont.getHeight.val
            ≤ (onCursorChanged tallLineFont tallEdit).mScrollOffset.y.val
                + (getTextAreaSize tallEdit).y.val)) := by
  have f0 : f32 0 = 0 := f32_zero
  have f2 : f32 2 = 2 := f32_ofNat 2 (by norm_num)
  have f3 : f32 3 = 3 := f32_ofNat 3 (by norm_num)
  have f18 : f32 18 = 18 := f32_ofNat 18 (by norm_num)
  have f288 : f32 288 = 288 := f32_ofNat 288 (by norm_num)
  have f54 : f32 (5 / 4) = 5 / 4 :=
    f32_exact (5 / 4) 5 (-2) (by norm_num) (by norm_num) (by norm_num)
  constructor
  · have hm : isMultiline tinyFont tinyEdit = true := by
      unfold isMultiline
      rw [decide_eq_true_iff]
      show f32 3 > f32 (f32 2 * f32 (5 / 4))
      rw [f3, f2, f54, show (2 : ℚ) * (5 / 4) = 5 / 2 by norm_num,
        f32_exact (5 / 2) 5 (-1) (by norm_num) (by norm_num) (by norm_num)]
      norm_num
    have hh : (getTextAreaSize tinyEdit).y.val = 1 := by
      show f32 (f32 3 - f32 2) = 1
      rw [f3, f2, show (3 : ℚ) - 2 = 1 by norm_num, f32_one]
    have hy : (tinyFont.getWrappedTextCursorOffset tinyEdit.mText (getTextAreaSize tinyEdit).x
        tinyEdit.mCursor).y.val = 0 := f0
    have ho : tinyEdit.mScrollOffset.y.val = 0 := f0
    have hf : tinyFont.getHeight.val = 2 := f2
    have ho1 : (onCursorChanged tinyFont tinyEdit).mScrollOffset.y.val = 1 := by
      have hbranch : (Float32.add tinyEdit.mScrollOffset.y (getTextAreaSize tinyEdit).y).val
          < (Float32.add (tinyFont.getWrappedTextCursorOffset tinyEdit.mText
              (getTextAreaSize tinyEdit).x tinyEdit.mCursor).y tinyFont.getHeight).val := by
        rw [Float32.val_add, Float32.val_add, ho, hh, hy, hf, zero_add, zero_add, f32_one, f2]
        norm_num
      unfold onCursorChanged
      simp only [hm, if_true]
      rw [if_pos hbranch]
      show (Float32.add (Float32.sub (tinyFont.getWrappedTextCursorOffset tinyEdit.mText
        (getTextAreaSize tinyEdit).x tinyEdit.mCursor).y (getTextAreaSize tinyEdit).y)
          tinyFont.getHeight).val = 1
      rw [Float32.val_add, Float32.val_sub, hy, hh, hf,
        show (0 : ℚ) - 1 = ((-1 : ℤ) : ℚ) by norm_num, f32_intCast (-1) (by norm_num),
        show (((-1 : ℤ) : ℚ)) + 2 = 1 by norm_num, f32_one]
    refine ⟨hm, ho1, hy, ?_⟩
    rintro ⟨h1, _⟩
    rw [ho1, hy] at h1
    norm_num at h1
  · have hm : isMultiline tallLineFont tallEdit = true := by
      unfold isMultiline
      rw [decide_eq_true_iff]
      show f32 (10806983 / 131072) > f32 (f32 18 * f32 (5 / 4))
      rw [f18, f54, show (18 : ℚ) * (5 / 4) = 45 / 2 by norm_num,
        f32_exact (45 / 2) 45 (-1) (by norm_num) (by norm_num) (by norm_num),
        f32_exact (10806983 / 131072) 10806983 (-17) (by norm_num) (by norm_num)
          (by norm_num)]
      norm_num
    have hh : (getTextAreaSize tallEdit).y.val = 10544839 / 131072 := by
      show f32 (f32 (10806983 / 131072) - f32 2) = 10544839 / 131072
      rw [f32_exact (10806983 / 131072) 10806983 (-17) (by norm_num) (by norm_num)
          (by norm_num), f2,
        show (10806983 / 131072 : ℚ) - 2 = 10544839 / 131072 by norm_num,
        f32_exact (10544839 / 131072) 10544839 (-17) (by norm_num) (by norm_num)
          (by norm_num)]
    have hy : (tallLineFont.getWrappedTextCursorOffset tallEdit.mText
        (getTextAreaSize tallEdit).x tallEdit.mCursor).y.val = 288 := f288
    have ho : tallEdit.mScrollOffset.y.val = 0 := f0
    have hf : tallLineFont.getHeight.val = 18 := f18
    have ho1 : (onCursorChanged tallLineFont tallEdit).mScrollOffset.y.val
        = 3695399 / 16384 := by
      have hbranch : (Float32.add tallEdit.mScrollOffset.y (getTextAreaSize tallEdit).y).val
          < (Float32.add (tallLineFont.getWrappedTextCursorOffset tallEdit.mText
              (getTextAreaSize tallEdit).x tallEdit.mCursor).y tallLineFont.getHeight).val := by
        rw [Float32.val_add, Float32.val_add, ho, hh, hy, hf, zero_add,
          f32_exact (10544839 / 131072) 10544839 (-17) (by norm_num) (by norm_num)
            (by norm_num),
          show (288 : ℚ) + 18 = 306 by norm_num, f32_ofNat 306 (by norm_num)]
        norm_num
      unfold onCursorChanged
      simp only [hm, if_true]
      rw [if_pos hbranch]
      show (Float32.add (Float32.sub (tallLineFont.getWrappedTextCursorOffset tallEdit.mText
        (getTextAreaSize tallEdit).x tallEdit.mCursor).y (getTextAreaSize tallEdit).y)
          tallLineFont.getHeight).val = 3695399 / 16384
      rw [Float32.val_add, Float32.val_sub, hy, hh, hf,
        show (288 : ℚ) - 10544839 / 131072 = 27203897 / 131072 by norm_num,
        f32_eq_of_tie_even (q := 27203897 / 131072) 7 13601948 (by norm_num) (by norm_num)
          (by norm_num) (by norm_num) (by norm_num) (by norm_num),
        show ((13601948 : ℤ) : ℚ) * 2 ^ ((7 : ℤ) - 23) + 18 = 3695399 / 16384 by norm_num,
        f32_exact (3695399 / 16384) 3695399 (-14) (by norm_num) (by norm_num) (by norm_num)]
    refine ⟨hm, ?_, hh, ho1, ?_⟩
    · rw [hf, hh]
      norm_num
    · rintro ⟨_, h2⟩
      rw [ho1, hy, hf, hh] at h2
      norm_num at h2

/-- The three-line sample component is multi-line under `monoFont`, and a
line fits in its text area: 62 is above `fl(20 * 1.25) = 25`, and the text area
is `fl(62 - 2) = 60` high. -/
theorem sampleMultiline_fits :
    isMultiline monoFont sampleMultiline = true
    ∧ (getTextAreaSize sampleMultiline).y.val = 60 := by
  constructor
  · unfold isMultiline
    rw [decide_eq_true_iff]
    show f32 62 > f32 (f32 20 * f32 (5 / 4))
    rw [f32_ofNat 62 (by norm_num), f32_ofNat 20 (by norm_num),
      f32_exact (5 / 4) 5 (-2) (by norm_num) (by norm_num) (by norm_num),
      show (20 : ℚ) * (5 / 4) = 25 by norm_num, f32_ofNat 25 (by norm_num)]
    norm_num
  · show f32 (f32 62 - f32 2) = 60
    rw [f32_ofNat 62 (by norm_num), f32_ofNat 2 (by norm_num),
      show (62 : ℚ) - 2 = 60 by norm_num, f32_ofNat 60 (by norm_num)]

/-- C7 (amended) at a concrete input: the three-line sample component is
scrolled to 100 while its cursor line is at 0, above the visible area; the
offset becomes the top of the line. -/
theorem C7_multi_line_scroll_witness :
    (onCursorChanged monoFont sampleMultiline).mScrollOffset.y
      = (monoFont.getWrappedTextCursorOffset sampleMultiline.mText
          (getTextAreaSize sampleMultiline).x sampleMultiline.mCursor).y :=
  (C7_multi_line_scroll monoFont sampleMultiline sampleMultiline_fits.1
    (by
      rw [sampleMultiline_fits.2]
      show f32 20 ≤ 60
      rw [f32_ofNat 20 (by norm_num)]
      norm_num)
    _ _ _ _ _ rfl rfl rfl rfl rfl).2.1
    (by
      show f32 0 < f32 100
      rw [f32_zero, f32_ofNat 100 (by norm_num)]
      norm_num)

/-- C8 at a concrete input: the cursor of the sample component (at 20) is
inside its visible area (0 to 246), and `onCursorChanged` changes nothing. -/
theorem C8_scroll_frame_witness : onCursorChanged monoFont sampleEdit = sampleEdit :=
  (C8_scroll_frame monoFont sampleEdit).1
    (sampleEdit_singleLine sampleEdit.mScrollOffset)
    (by
      show f32 0 ≤ (monoFont.sizeText (List.take 2 ['a', 'b', 'c'])).x.val
      rw [f32_zero, sampleEdit_cursorWidth]
      norm_num)
    (by
      show (monoFont.sizeText (List.take 2 ['a', 'b', 'c'])).x.val
        ≤ f32 0 + (getTextAreaSize { sampleEdit with
            mScrollOffset := sampleEdit.mScrollOffset }).x.val
      rw [f32_zero, sampleEdit_cursorWidth, sampleEdit_textAreaWidth]
      norm_num)

/-- The newline typed by the Return key can be inserted as soon as the cursor
is inside the buffer. -/
theorem textInput_newline_isSome (font : Font) (c : TextEditComponent)
    (hc : c.mCursor ≤ c.mText.length) :
    ∃ c1, textInput font c [Char.ofNat 10] = some c1 := by
  have hnb : firstChar [Char.ofNat 10] ≠ backspace := by decide
  unfold textInput textInputEdit
  by_cases hed : c.mEditing = true
  · simp [hed, hnb, stringInsert, hc]
  · simp [hed]

/-- A keyboard Return in an editing multi-line component whose cursor is past
the end of the buffer: `textInput("\n")` calls `insert` past the end, which
throws, and `input` has no result. -/
theorem input_return_past_end (font : Font) (c : TextEditComponent) (config : InputConfig)
    (inp : Input) (hv : inp.value ≠ 0) (hed : c.mEditing = true)
    (hkb : config.getDeviceId = DEVICE_KEYBOARD) (hid : inp.id = SDLK_RETURN)
    (hm : isMultiline font c = true) (hc : c.mText.length < c.mCursor) :
    input font c config inp = none := by
  have hnb : firstChar [Char.ofNat 10] ≠ backspace := by decide
  have hT : textInput font c [Char.ofNat 10] = none := by
    unfold textInput textInputEdit
    simp [hed, hnb, stringInsert, not_le.mpr hc]
  have ha : ¬ ((config.isMappedTo "a" inp && c.mFocused && !c.mEditing) = true) := by
    simp [hed]
  unfold input
  rw [if_neg hv, if_neg ha, if_pos hed, if_pos ⟨hkb, hid⟩, if_pos hm, hT]
  rfl

theorem moveCursor_mText (font : Font) (c : TextEditComponent) (amt : Int) :
    (moveCursor font c amt).mText = c.mText := by
  unfold moveCursor
  rw [onCursorChanged_mText]

theorem moveCursor_mCursor (font : Font) (c : TextEditComponent) (amt : Int) :
    (moveCursor font c amt).mCursor = font.moveCursor c.mText c.mCursor amt := by
  unfold moveCursor
  rw [onCursorChanged_mCursor]

theorem moveCursor_mEditing (font : Font) (c : TextEditComponent) (amt : Int) :
    (moveCursor font c amt).mEditing = c.mEditing := by
  unfold moveCursor onCursorChanged
  simp only []
  split_ifs <;> rfl

theorem moveCursor_mSize (font : Font) (c : TextEditComponent) (amt : Int) :
    (moveCursor font c amt).mSize = c.mSize := by
  unfold moveCursor onCursorChanged
  simp only []
  split_ifs <;> rfl

/-- C11, as stated, fails. `setCursor(5)` on the three-line sample component
leaves the cursor at 5 in the buffer `abc`. The component is editing, so a
keyboard Return with value 1 should be consumed; but `input` calls
`textInput("\n")`, whose `insert` at 5 throws, and `input` returns nothing. -/
theorem C11_input_consumed_counterexample :
    samplePastEnd.mText = ['a', 'b', 'c'] ∧ samplePastEnd.mCursor = 5
    ∧ input tinyFont samplePastEnd sampleConfig { id := 13, value := 1 } = none
    ∧ ¬ ((∃ c1, input tinyFont samplePastEnd sampleConfig { id := 13, value := 1 }
            = some (true, c1))
        ↔ ((1 : Int) ≠ 0
            ∧ (samplePastEnd.mEditing = true
                ∨ (sampleConfig.isMappedTo "a" { id := 13, value := 1 } = true
                    ∧ samplePastEnd.mFocused = true)))) := by
  have htext : samplePastEnd.mText = ['a', 'b', 'c'] := by
    unfold samplePastEnd setCursor
    rw [moveCursor_mText]
    rfl
  have hcur : samplePastEnd.mCursor = 5 := by
    unfold samplePastEnd setCursor
    rw [moveCursor_mCursor]
    rfl
  have hed : samplePastEnd.mEditing = true := by
    unfold samplePastEnd setCursor
    rw [moveCursor_mEditing]
    rfl
  have hm : isMultiline tinyFont samplePastEnd = true := by
    unfold isMultiline samplePastEnd setCursor
    rw [moveCursor_mSize, decide_eq_true_iff]
    show f32 62 > f32 (f32 2 * f32 (5 / 4))
    rw [f32_ofNat 62 (by norm_num), f32_ofNat 2 (by norm_num),
      f32_exact (5 / 4) 5 (-2) (by norm_num) (by norm_num) (by norm_num),
      show (2 : ℚ) * (5 / 4) = 5 / 2 by norm_num,
      f32_exact (5 / 2) 5 (-1) (by norm_num) (by norm_num) (by norm_num)]
    norm_num
  have hnone : input tinyFont samplePastEnd sampleConfig { id := 13, value := 1 } = none :=
    input_return_past_end tinyFont samplePastEnd sampleConfig { id := 13, value := 1 }
      (by decide) hed rfl rfl hm (by rw [htext, hcur]; decide)
  refine ⟨htext, hcur, hnone, ?_⟩
  intro hiff
  obtain ⟨c1, h1⟩ := hiff.mpr ⟨by decide, Or.inl hed⟩
  rw [hnone] at h1
  exact Option.noConfusion h1

/-- C11, amended. For every input event and every state whose cursor is at
most the buffer length, `input` returns, and it returns true exactly when
`input.value != 0` and the component is editing or the event is mapped to "a"
and the component is focused; in any state, whenever `input` returns, its flag
is that one. An event with value 0 is never consumed, in any state: the result
is the component itself, except that the repeat direction is reset to 0 when,
and only when, the event is mapped to left or right; the text, the cursor and
the editing flag are kept. -/
theorem C11_input_consumed (font : Font) (c : TextEditComponent) (config : InputConfig)
    (inp : Input) :
    (∀ (b : Bool) (c1 : TextEditComponent), input font c config inp = some (b, c1) →
        (b = true ↔ inp.value ≠ 0
          ∧ (c.mEditing = true
              ∨ (config.isMappedTo "a" inp = true ∧ c.mFocused = true))))
    ∧ (c.mCursor ≤ c.mText.length → ∃ b c1, input font c config inp = some (b, c1))
    ∧ (inp.value = 0 →
        ∃ c1, input font c config inp = some (false, c1)
          ∧ c1 = (if (config.isMappedTo "left" inp || config.isMappedTo "right" inp) = true
                  then { c with mCursorRepeatDir := 0 } else c)
          ∧ c1.mText = c.mText ∧ c1.mCursor = c.mCursor ∧ c1.mEditing = c.mEditing) := by
  refine ⟨?_, ?_, ?_⟩
  · intro b c1 h
    unfold input at h
    by_cases hv : inp.value = 0
    · rw [if_pos hv] at h
      have hb : b = false := by
        split_ifs at h <;> simp only [Option.some.injEq, Prod.mk.injEq] at h <;>
          exact h.1.symm
      subst hb
      simp [hv]
    · rw [if_neg hv] at h
      by_cases ha : (config.isMappedTo "a" inp && c.mFocused && !c.mEditing) = true
      · rw [if_pos ha] at h
        simp only [Option.some.injEq, Prod.mk.injEq] at h
        simp only [Bool.and_eq_true, Bool.not_eq_true', ] at ha
        refine ⟨fun _ => ⟨hv, Or.inr ⟨ha.1.1, ha.1.2⟩⟩, fun _ => h.1.symm⟩
      · rw [if_neg ha] at h
        by_cases hed : c.mEditing = true
        · rw [if_pos hed] at h
          have hb : b = true := by
            split_ifs at h
            · rcases hT : textInput font c [Char.ofNat 10] with _ | c2
              · rw [hT] at h
                simp at h
              · rw [hT] at h
                simp only [Option.map_some', Option.some.injEq, Prod.mk.injEq] at h
                exact h.1.symm
            all_goals
              simp only [Option.some.injEq, Prod.mk.injEq] at h
              exact h.1.symm
          exact ⟨fun _ => ⟨hv, Or.inl hed⟩, fun _ => hb⟩
        · rw [if_neg hed] at h
          simp only [Option.some.injEq, Prod.mk.injEq] at h
          have hb : b = false := h.1.symm
          subst hb
          constructor
          · intro hf
            exact absurd hf (by decide)
          · rintro ⟨_, hE | ⟨hA, hF⟩⟩
            · exact absurd hE hed
            · exfalso
              apply ha
              simp only [Bool.not_eq_true] at hed
              simp [hA, hF, hed]
  · intro hc
    obtain ⟨c2, hT⟩ := textInput_newline_isSome font c hc
    have hsome : (input font c config inp).isSome = true := by
      unfold input
      rw [hT]
      split_ifs <;> rfl
    obtain ⟨⟨b, c1⟩, h⟩ := Option.isSome_iff_exists.mp hsome
    exact ⟨b, c1, h⟩
  · intro hv
    have hin : input font c config inp = some (false,
        if (config.isMappedTo "left" inp || config.isMappedTo "right" inp) = true
        then { c with mCursorRepeatDir := 0 } else c) := by
      unfold input
      rw [if_pos hv]
      split_ifs <;> rfl
    refine ⟨_, hin, rfl, ?_, ?_, ?_⟩ <;> split_ifs <;> rfl

/-- C11 (amended) at a concrete input: the sample component, whose cursor is
inside its buffer, receives the release (value 0) of the left key; the event is
not consumed and only the repeat direction is reset. -/
theorem C11_input_consumed_witness :
    (∃ b c1, input monoFont sampleEdit sampleConfig { id := 1, value := 0 } = some (b, c1))
    ∧ ∃ c1, input monoFont sampleEdit sampleConfig { id := 1, value := 0 } = some (false, c1)
      ∧ c1 = (if (sampleConfig.isMappedTo "left" { id := 1, value := 0 }
                  || sampleConfig.isMappedTo "right" { id := 1, value := 0 }) = true
              then { sampleEdit with mCursorRepeatDir := 0 } else sampleEdit)
      ∧ c1.mText = sampleEdit.mText ∧ c1.mCursor = sampleEdit.mCursor
      ∧ c1.mEditing = sampleEdit.mEditing :=
  ⟨(C11_input_consumed monoFont sampleEdit sampleConfig { id := 1, value := 0 }).2.1
      (by decide),
    (C11_input_consumed monoFont sampleEdit sampleConfig { id := 1, value := 0 }).2.2 rfl⟩

end TextEditComponent

/-! ## Theorems: the scraper-start screen -/

namespace GuiScraperStart

/-- The inner loop of `getSearches` appends the games of the system that pass
the selector, in list order. -/
theorem getSearches_inner (sys : SystemData) (selector : GameFilterFunc) :
    ∀ (games : List FileData) (queue : SearchQueue),
      games.foldl
          (fun queue game =>
            if selector sys game then queue.push { system := sys, game := game } else queue)
          queue
        = queue ++ (games.filter (selector sys)).map
            (fun game => ({ system := sys, game := game } : ScraperSearchParams)) := by
  intro games
  induction games with
  | nil => intro queue; simp
  | cons game games ih =>
    intro queue
    rw [List.foldl_cons, ih]
    by_cases h : selector sys game = true
    · simp [h, SearchQueue.push, List.filter_cons]
    · simp [h, List.filter_cons]

/-- The outer loop of `getSearches`, from any queue. -/
theorem getSearches_outer (selector : GameFilterFunc) :
    ∀ (systems : List SystemData) (queue : SearchQueue),
      systems.foldl
          (fun queue sys =>
            sys.games.foldl
              (fun queue game =>
                if selector sys game then queue.push { system := sys, game := game }
                else queue)
              queue)
          queue
        = queue ++ (systems.map fun sys =>
            (sys.games.filter (selector sys)).map
              (fun game => ({ system := sys, game := game } : ScraperSearchParams))).flatten := by
  intro systems
  induction systems with
  | nil => intro queue; simp
  | cons sys systems ih =>
    intro queue
    rw [List.foldl_cons, getSearches_inner, ih]
    simp [List.append_assoc]

/-- C9. `getSearches` builds the work queue by filtering with the predicate:
the queue is, system after system in the given order, the games of the
system's recursive game list that pass the selector, in list order, each paired
with its system. So a pair is in the queue exactly when its game is in the
game list of its system, a given one, and the selector accepts it. With the
always-true filter the queue has as many entries as there are games, and with
the image filter it holds exactly the games whose "image" metadata is empty. -/
theorem C9_getSearches_filter (systems : List SystemData) (selector : GameFilterFunc) :
    getSearches systems selector
        = (systems.map fun sys =>
            (sys.games.filter (selector sys)).map
              (fun game => ({ system := sys, game := game } : ScraperSearchParams))).flatten
    ∧ (∀ s : ScraperSearchParams, s ∈ getSearches systems selector ↔
        ∃ sys ∈ systems, ∃ game ∈ sys.games,
          selector sys game = true ∧ s = { system := sys, game := game })
    ∧ (getSearches systems filterAllGames).length = (systems.map fun sys => sys.games.length).sum
    ∧ getSearches systems filterMissingImage
        = (systems.map fun sys =>
            (sys.games.filter fun game => (game.metadata.get "image").isEmpty).map
              (fun game => ({ system := sys, game := game } : ScraperSearchParams))).flatten := by
  have hall : ∀ sel : GameFilterFunc, getSearches systems sel
      = (systems.map fun sys =>
          (sys.games.filter (sel sys)).map
            (fun game => ({ system := sys, game := game } : ScraperSearchParams))).flatten := by
    intro sel
    unfold getSearches
    rw [getSearches_outer]
    simp
  refine ⟨hall selector, ?_, ?_, ?_⟩
  · intro s
    rw [hall selector]
    simp only [List.mem_flatten, List.mem_map, List.mem_filter]
    constructor
    · rintro ⟨l, ⟨sys, hsys, rfl⟩, hs⟩
      simp only [List.mem_map, List.mem_filter] at hs
      obtain ⟨game, ⟨hgame, hsel⟩, rfl⟩ := hs
      exact ⟨sys, hsys, game, hgame, hsel, rfl⟩
    · rintro ⟨sys, hsys, game, hgame, hsel, rfl⟩
      refine ⟨_, ⟨sys, hsys, rfl⟩, ?_⟩
      simp only [List.mem_map, List.mem_filter]
      exact ⟨game, ⟨hgame, hsel⟩, rfl⟩
  · rw [hall filterAllGames]
    clear hall
    induction systems with
    | nil => rfl
    | cons sys systems ih =>
      have hkeep : sys.games.filter (filterAllGames sys) = sys.games := by
        simp [filterAllGames]
      rw [List.map_cons, List.flatten_cons, List.length_append, List.map_cons, List.sum_cons,
        ih, List.length_map, hkeep]
  · rw [hall filterMissingImage]
    rfl

/-- C10. Queue-emptiness check in `start`. If the queue built from the
selected systems and the selected filter is empty, `start` pushes one message
dialog and nothing else, and does not close the screen. If it is not empty,
`start` pushes one `GuiScraperMulti` built from that queue and the state of the
approve-results switch, and closes the screen. A `GuiScraperMulti` is pushed,
and the screen closed, exactly when the queue is not empty. -/
theorem C10_start_queue_check (g : GuiScraperStart) (w : Window) :
    (getSearches g.mSystems g.mFilters = [] →
        (start g w).window.guiStack
            = w.guiStack ++ [Gui.msgBox "NENHUM JOGO CORRESPONDE AO CRITERIO." []]
          ∧ (start g w).deleted = false)
    ∧ (getSearches g.mSystems g.mFilters ≠ [] →
        (start g w).window.guiStack
            = w.guiStack
                ++ [Gui.scraperMulti (getSearches g.mSystems g.mFilters) g.mApproveResults]
          ∧ (start g w).deleted = true)
    ∧ ((∃ q a, (start g w).window.guiStack = w.guiStack ++ [Gui.scraperMulti q a])
        ↔ getSearches g.mSystems g.mFilters ≠ [])
    ∧ ((start g w).deleted = true ↔ getSearches g.mSystems g.mFilters ≠ []) := by
  have hempty : getSearches g.mSystems g.mFilters = [] →
      start g w = { window := w.pushGui (Gui.msgBox "NENHUM JOGO CORRESPONDE AO CRITERIO." []),
                    deleted := false } := by
    intro h
    unfold start
    simp [h]
  have hfull : getSearches g.mSystems g.mFilters ≠ [] →
      start g w = { window := w.pushGui
                      (Gui.scraperMulti (getSearches g.mSystems g.mFilters) g.mApproveResults),
                    deleted := true } := by
    intro h
    unfold start
    simp [h]
  refine ⟨?_, ?_, ?_, ?_⟩
  · intro h
    rw [hempty h]
    exact ⟨rfl, rfl⟩
  · intro h
    rw [hfull h]
    exact ⟨rfl, rfl⟩
  · constructor
    · rintro ⟨q, a, hq⟩ hnil
      rw [hempty hnil] at hq
      simp [Window.pushGui] at hq
    · intro h
      rw [hfull h]
      exact ⟨_, _, rfl⟩
  · constructor
    · intro hdel hnil
      rw [hempty hnil] at hdel
      simp at hdel
    · intro h
      rw [hfull h]

/-- C10 at a concrete input: the sample screen has one game to scrape, so
`start` pushes the batch scraper with that one search and closes the screen. -/
theorem C10_start_queue_check_witness :
    (start sampleScraperStart { guiStack := [] }).window.guiStack
        = [] ++ [Gui.scraperMulti
            (getSearches sampleScraperStart.mSystems sampleScraperStart.mFilters)
            sampleScraperStart.mApproveResults]
    ∧ (start sampleScraperStart { guiStack := [] }).deleted = true :=
  (C10_start_queue_check sampleScraperStart { guiStack := [] }).2.1
    (by
      have hq : getSearches sampleScraperStart.mSystems sampleScraperStart.mFilters
          = [{ system := sampleSystem,
               game := { path := "./game.nes", metadata := { get := fun _ => "" } } }] := rfl
      rw [hq]
      exact List.cons_ne_nil _ _)

/-- The loop of `pressedStart` stops with the warning at the first system
without a platform id, and otherwise ends in `start`. -/
theorem pressedStartLoop_eq (strToUpper : String → String) (g : GuiScraperStart)
    (w : Window) :
    ∀ systems : List SystemData,
      ((∃ sys ∈ systems, sys.platformIds = []) →
        pressedStartLoop strToUpper g w systems
          = { window := w.pushGui
                (Gui.msgBox (strToUpper platformWarning)
                  [{ name := "SIM", func := some MsgBoxFunc.start },
                   { name := "NAO", func := none }]),
              deleted := false })
      ∧ ((∀ sys ∈ systems, sys.platformIds ≠ []) →
        pressedStartLoop strToUpper g w systems = start g w) := by
  intro systems
  induction systems with
  | nil =>
    constructor
    · rintro ⟨sys, hmem, _⟩
      exact absurd hmem (List.not_mem_nil _)
    · intro _
      rfl
  | cons sys rest ih =>
    by_cases hsys : sys.platformIds = []
    · constructor
      · intro _
        simp [pressedStartLoop, hsys]
      · intro hall
        exact absurd hsys (hall sys (List.mem_cons_self _ _))
    · have hstep : pressedStartLoop strToUpper g w (sys :: rest)
          = pressedStartLoop strToUpper g w rest := by
        simp [pressedStartLoop, hsys]
      rw [hstep]
      constructor
      · rintro ⟨s, hmem, hs⟩
        rcases List.mem_cons.mp hmem with heq | hrest
        · subst heq
          exact absurd hs hsys
        · exact ih.1 ⟨s, hrest, hs⟩
      · intro hall
        exact ih.2 (fun s hs => hall s (List.mem_cons_of_mem _ hs))

/-- C12. `pressedStart` warns before scraping systems without a platform. If at
least one selected system has an empty platform-id list, what `pressedStart`
leaves is the window with exactly one more screen, the confirmation dialog
(however many such systems there are), and the scraper-start screen still open:
nothing of `start` has happened, which would have pushed a screen of its own;
`start` is bound to the confirm button "SIM" of the dialog, and the decline
button "NAO" is bound to nothing. If every selected system has a platform id
(the empty selection included), no dialog of `pressedStart` is pushed and the
outcome is exactly that of one run of `start`, which pushes one screen. -/
theorem C12_pressedStart_warning (strToUpper : String → String) (g : GuiScraperStart)
    (w : Window) :
    ((∃ sys ∈ g.mSystems, sys.platformIds = []) →
        (pressedStart strToUpper g w).window.guiStack
            = w.guiStack
                ++ [Gui.msgBox (strToUpper platformWarning)
                      [{ name := "SIM", func := some MsgBoxFunc.start },
                       { name := "NAO", func := none }]]
          ∧ (pressedStart strToUpper g w).deleted = false)
    ∧ ((∀ sys ∈ g.mSystems, sys.platformIds ≠ []) →
        pressedStart strToUpper g w = start g w)
    ∧ (∃ gui, (start g w).window.guiStack = w.guiStack ++ [gui]
        ∧ gui ≠ Gui.msgBox (strToUpper platformWarning)
                  [{ name := "SIM", func := some MsgBoxFunc.start },
                   { name := "NAO", func := none }]) := by
  refine ⟨?_, ?_, ?_⟩
  · intro h
    unfold pressedStart
    rw [(pressedStartLoop_eq strToUpper g w g.mSystems).1 h]
    exact ⟨rfl, rfl⟩
  · intro h
    unfold pressedStart
    exact (pressedStartLoop_eq strToUpper g w g.mSystems).2 h
  · unfold start
    by_cases hq : (getSearches g.mSystems g.mFilters).isEmpty = true
    · refine ⟨Gui.msgBox "NENHUM JOGO CORRESPONDE AO CRITERIO." [], ?_, ?_⟩
      · simp [hq, Window.pushGui]
      · intro heq
        simp at heq
    · refine ⟨Gui.scraperMulti (getSearches g.mSystems g.mFilters) g.mApproveResults, ?_, ?_⟩
      · simp [hq, Window.pushGui]
      · intro heq
        exact Gui.noConfusion heq

/-- C12 at a concrete input: three selected systems, two of them without a
platform id, and an empty window: one dialog is pushed. -/
theorem C12_pressedStart_warning_witness :
    (pressedStart sampleToUpper sampleScraperStartNoPlatform { guiStack := [] }).window.guiStack
        = [] ++ [Gui.msgBox (sampleToUpper platformWarning)
                  [{ name := "SIM", func := some MsgBoxFunc.start },
                   { name := "NAO", func := none }]]
    ∧ (pressedStart sampleToUpper sampleScraperStartNoPlatform { guiStack := [] }).deleted
        = false :=
  (C12_pressedStart_warning sampleToUpper sampleScraperStartNoPlatform { guiStack := [] }).1
    ⟨sampleSystemNoPlatform, by simp [sampleScraperStartNoPlatform], rfl⟩

end GuiScraperStart
